import Mathlib

/-!
# Unscented Kalman filter: embedding of `src/ukf.cpp`

The filter of `src/ukf.cpp` is embedded as pure functions over an ordered
field `F`.

Conventions of the embedding.

* `double` and `float` values are elements of `F`; the conversions between the
  two are the identity and every arithmetic operation is exact.  The
  definitions are polymorphic in `F`, so they run on `ℚ` and are reasoned
  about on `ℝ`.
* What `ukf.cpp` takes from `<cmath>` and from Eigen (`cos`, `sin`, `sqrt`,
  `atan2`, `M_PI`, the Cholesky factor `llt().matrixL()`) is a field of `Env`.
* The class members live in the structure `UKF`.  The dimensions `n_x_`,
  `n_aug_`, `n_sig_` and the spreading parameter `lambda_` are written once by
  the constructor and never again; they are constants here, so that vectors
  and matrices carry their sizes in their types.
* Storage that the source reads without having written it is an explicit
  argument: `Uninit` for the members the constructor leaves unwritten, and two
  fields of `Env` for the cross-correlation matrices of the two updates.
* Eigen's run-time index and shape assertions are taken to be compiled out: a
  write past the end of a vector does not touch any member of the filter.
* Division is the field's, so a quotient by zero is 0 here, where IEEE
  arithmetic gives an infinity or a NaN.  Statements about a zero denominator
  leave the quotient as it is written in the source.
-/

set_option linter.dupNamespace false

open Matrix

/-- Sensor tag of a measurement (`MeasurementPackage::SensorType`). -/
inductive SensorType where
  | LASER
  | RADAR
  deriving DecidableEq, Repr

/-- The three members of `MeasurementPackage` that `ukf.cpp` reads.  The raw
reading has two entries for a LASER and three for a RADAR measurement. -/
structure MeasurementPackage (F : Type) where
  timestamp_ : Int
  sensor_type_ : SensorType
  raw_measurements_ : List F

/-- Coefficient access `raw_measurements_(i)`. -/
def MeasurementPackage.raw {F : Type} [Zero F] (m : MeasurementPackage F) (i : Nat) : F :=
  m.raw_measurements_.getD i 0

/-- State dimension, `n_x_ = 5`. -/
abbrev n_x_ : Nat := 5

/-- Augmented state dimension, `n_aug_ = 7`. -/
abbrev n_aug_ : Nat := 7

/-- Number of sigma points, `n_sig_ = 2*n_aug_ + 1`. -/
abbrev n_sig_ : Nat := 2 * n_aug_ + 1

/-- Spreading parameter, `lambda_ = 3 - n_aug_`; a `double`, as in the class
declaration that the header (not part of the sources) gives. -/
def lambda_ (F : Type) [LinearOrderedField F] : F := 3 - (n_aug_ : F)

/-- The members of the class `UKF` that change or that configure the filter. -/
structure UKF (F : Type) where
  is_initialized_ : Bool
  use_laser_ : Bool
  use_radar_ : Bool
  x_ : Fin n_x_ → F
  P_ : Matrix (Fin n_x_) (Fin n_x_) F
  Xsig_pred_ : Matrix (Fin n_x_) (Fin n_sig_) F
  time_us_ : Int
  std_a_ : F
  std_yawdd_ : F
  std_laspx_ : F
  std_laspy_ : F
  std_radr_ : F
  std_radphi_ : F
  std_radrd_ : F
  weights_ : Fin n_sig_ → F

/-- Contents of the members that the constructor allocates or declares but
does not write: `x_ = VectorXd(5)`, `Xsig_pred_ = MatrixXd(n_x_, n_sig_)`,
`weights_ = VectorXd(n_sig_)` (Eigen does not clear new storage) and
`time_us_`. -/
structure Uninit (F : Type) where
  x_ : Fin n_x_ → F
  Xsig_pred_ : Matrix (Fin n_x_) (Fin n_sig_) F
  weights_ : Fin n_sig_ → F
  time_us_ : Int

/-- What `ukf.cpp` uses but does not define.

* `cos`, `sin`, `sqrt`, `atan2`, `M_PI`: from `<cmath>`; `M_PI` is positive.
* `llt_matrixL`: Eigen's `P_aug.llt().matrixL()`.
* `UpdateLidar_Tc`: the value the loop of lines 326-335 leaves in `Tc`.  That
  loop initialises its local `z_diff` from itself (`Zsig.col(i) - z_diff`) and
  multiplies the 1x2 row `z_diff.transpose()` by the 5x1 column `x_diff`, so
  the source does not determine the value.
* `UpdateRadar_Tc0`: what the first `Tc + ...` of line 447 reads from `Tc`,
  which line 430 allocates as 3x3 while the summands are 5x3. -/
structure Env (F : Type) [LinearOrderedField F] where
  cos : F → F
  sin : F → F
  sqrt : F → F
  atan2 : F → F → F
  M_PI : F
  M_PI_pos : 0 < M_PI
  llt_matrixL : Matrix (Fin n_aug_) (Fin n_aug_) F → Matrix (Fin n_aug_) (Fin n_aug_) F
  UpdateLidar_Tc : Matrix (Fin n_x_) (Fin 2) F
  UpdateRadar_Tc0 : Matrix (Fin n_x_) (Fin 3) F

/-- The constructor `UKF::UKF()`. -/
def UKF.UKF {F : Type} [LinearOrderedField F] (u : Uninit F) : UKF F where
  use_laser_ := true
  use_radar_ := true
  x_ := u.x_
  std_a_ := 2.0
  std_yawdd_ := 0.4
  std_laspx_ := 0.15
  std_laspy_ := 0.15
  std_radr_ := 0.3
  std_radphi_ := 0.03
  std_radrd_ := 0.3
  P_ := !![0.15, 0, 0, 0, 0;
           0, 0.15, 0, 0, 0;
           0, 0, 1, 0, 0;
           0, 0, 0, 1, 0;
           0, 0, 0, 0, 1]
  Xsig_pred_ := u.Xsig_pred_
  weights_ := u.weights_
  time_us_ := u.time_us_
  is_initialized_ := false

/-- First loop of the angle normalization: `while (a > M_PI) a -= 2.*M_PI;`. -/
def whileAbove {F : Type} [LinearOrderedField F] [FloorRing F] (M_PI : F) (hpi : 0 < M_PI)
    (a : F) : F :=
  if a > M_PI then whileAbove M_PI hpi (a - 2 * M_PI) else a
termination_by Int.toNat ⌈(a - M_PI) / (2 * M_PI)⌉
decreasing_by
  rename_i h
  have h2 : (0 : F) < 2 * M_PI := by linarith
  have e : (a - 2 * M_PI - M_PI) / (2 * M_PI) = (a - M_PI) / (2 * M_PI) - 1 := by
    field_simp
    ring
  have hc : 0 < ⌈(a - M_PI) / (2 * M_PI)⌉ := Int.ceil_pos.mpr (div_pos (by linarith) h2)
  rw [e, Int.ceil_sub_one]
  omega

/-- Second loop of the angle normalization: `while (a < -M_PI) a += 2.*M_PI;`. -/
def whileBelow {F : Type} [LinearOrderedField F] [FloorRing F] (M_PI : F) (hpi : 0 < M_PI)
    (a : F) : F :=
  if a < -M_PI then whileBelow M_PI hpi (a + 2 * M_PI) else a
termination_by Int.toNat ⌈(-M_PI - a) / (2 * M_PI)⌉
decreasing_by
  rename_i h
  have h2 : (0 : F) < 2 * M_PI := by linarith
  have e : (-M_PI - (a + 2 * M_PI)) / (2 * M_PI) = (-M_PI - a) / (2 * M_PI) - 1 := by
    field_simp
    ring
  have hc : 0 < ⌈(-M_PI - a) / (2 * M_PI)⌉ := Int.ceil_pos.mpr (div_pos (by linarith) h2)
  rw [e, Int.ceil_sub_one]
  omega

/-- The angle normalization applied to yaw and bearing residuals (lines
255-256, 413-414, 438-439, 444-445, 467-468): the two loops in sequence. -/
def angle_normalization {F : Type} [LinearOrderedField F] [FloorRing F] (M_PI : F)
    (hpi : 0 < M_PI) (a : F) : F :=
  whileBelow M_PI hpi (whileAbove M_PI hpi a)

/-- A coefficient write `w(i) = v` on a vector of length `n`.  An index past
the end does not reach the vector. -/
def writeAt {F : Type} {n : Nat} (w : Fin n → F) (i : Nat) (v : F) : Fin n → F :=
  fun j => if j.val = i then v else w j

/-- The weight-setting code of `Prediction` (lines 229-236) for an augmented
dimension `n_aug` and a spreading parameter `lambda`, on the vector `w` of
length `2*n_aug+1`: `weights_(0) = lambda/(lambda + n_aug)`, then
`for (i = 1; i < n_sig + 1; i++) weights_(i) = 0.5/(n_aug + lambda)`. -/
def setWeights {F : Type} [LinearOrderedField F] (n_aug : Nat) (lambda : F)
    (w : Fin (2 * n_aug + 1) → F) : Fin (2 * n_aug + 1) → F :=
  let weight_0 := lambda / (lambda + (n_aug : F))
  (List.range' 1 (2 * n_aug + 1)).foldl
    (fun acc i => writeAt acc i (0.5 / ((n_aug : F) + lambda))) (writeAt w 0 weight_0)

/-- Augmented mean of `Prediction` (lines 153-158): `[x_; 0; 0]`. -/
def x_aug {F : Type} [LinearOrderedField F] (s : UKF F) : Fin n_aug_ → F :=
  fun i => if h : i.val < n_x_ then s.x_ ⟨i.val, h⟩ else 0

/-- Augmented covariance of `Prediction` (lines 161-165): zero, with `P_` in
the top left corner and the two process-noise variances on the diagonal. -/
def P_aug {F : Type} [LinearOrderedField F] (s : UKF F) :
    Matrix (Fin n_aug_) (Fin n_aug_) F :=
  fun i j =>
    if h : i.val < n_x_ ∧ j.val < n_x_ then s.P_ ⟨i.val, h.1⟩ ⟨j.val, h.2⟩
    else if i.val = 5 ∧ j.val = 5 then s.std_a_ * s.std_a_
    else if i.val = 6 ∧ j.val = 6 then s.std_yawdd_ * s.std_yawdd_
    else 0

/-- The augmented sigma points of `Prediction` (lines 171-179), column by
column: column 0 is `x_aug`, column `i+1` is `x_aug + sqrt(lambda_+n_aug_)*L.col(i)`
and column `i+1+n_aug_` is `x_aug - sqrt(lambda_+n_aug_)*L.col(i)`, `i = 0..6`.
The argument `sqrt` is `std::sqrt`. -/
def Xsig_aug {F : Type} [LinearOrderedField F] (sqrt : F → F) (x_aug : Fin n_aug_ → F)
    (L : Matrix (Fin n_aug_) (Fin n_aug_) F) : Matrix (Fin n_aug_) (Fin n_sig_) F :=
  fun r c =>
    if c.val = 0 then x_aug r
    else if h : c.val < n_aug_ + 1 then
      x_aug r + sqrt (lambda_ F + (n_aug_ : F)) * L r ⟨c.val - 1, by simp only [n_aug_] at *; omega⟩
    else
      x_aug r - sqrt (lambda_ F + (n_aug_ : F)) * L r ⟨c.val - 1 - n_aug_, by have := c.isLt; simp only [n_aug_, n_sig_] at *; omega⟩

/-- The motion model applied to one augmented sigma point (body of the loop
of lines 182-225). -/
def predictSigmaPoint {F : Type} [LinearOrderedField F] (e : Env F) (delta_t : F)
    (X : Fin n_aug_ → F) : Fin n_x_ → F :=
  let p_x := X 0
  let p_y := X 1
  let v := X 2
  let yaw := X 3
  let yawd := X 4
  let nu_a := X 5
  let nu_yawdd := X 6
  let v_p := v
  let yaw_p := yaw + yawd * delta_t
  let yawd_p := yawd
  let px_p :=
    if |yawd| > 0.001 then p_x + v / yawd * e.sin (yaw + yawd * delta_t)
    else p_x + v * delta_t * e.cos yaw
  let py_p :=
    if |yawd| > 0.001 then p_y + v / yawd * (e.cos yaw - e.cos (yaw + yawd * delta_t))
    else p_y + v * delta_t * e.sin yaw
  let px_p := px_p + 0.5 * nu_a * delta_t * delta_t * e.cos yaw
  let py_p := py_p + 0.5 * nu_a * delta_t * delta_t * e.sin yaw
  let v_p := v_p + nu_a * delta_t
  let yaw_p := yaw_p + 0.5 * nu_yawdd * delta_t * delta_t
  let yawd_p := yawd_p + nu_yawdd * delta_t
  ![px_p, py_p, v_p, yaw_p, yawd_p]

/-- A state residual with its yaw component (index 3) normalized. -/
def x_diff_normalized {F : Type} [LinearOrderedField F] [FloorRing F] (e : Env F)
    (d : Fin n_x_ → F) : Fin n_x_ → F :=
  Function.update d 3 (angle_normalization e.M_PI e.M_PI_pos (d 3))

/-- The method `UKF::Prediction(delta_t)`. -/
def Prediction {F : Type} [LinearOrderedField F] [FloorRing F] (e : Env F) (s : UKF F)
    (delta_t : F) : UKF F :=
  let L := e.llt_matrixL (P_aug s)
  let Xsig := Xsig_aug e.sqrt (x_aug s) L
  let Xsig_pred : Matrix (Fin n_x_) (Fin n_sig_) F :=
    fun r i => predictSigmaPoint e delta_t (fun k => Xsig k i) r
  let weights : Fin n_sig_ → F := setWeights n_aug_ (lambda_ F) s.weights_
  let x : Fin n_x_ → F := Xsig_pred.mulVec weights
  let P : Matrix (Fin n_x_) (Fin n_x_) F :=
    ∑ i : Fin n_sig_,
      weights i • vecMulVec (x_diff_normalized e (fun r => Xsig_pred r i - x r))
        (x_diff_normalized e (fun r => Xsig_pred r i - x r))
  { s with Xsig_pred_ := Xsig_pred, weights_ := weights, x_ := x, P_ := P }

/-- Eigen's `inverse()` of a square matrix: the inverse of the determinant
times the adjugate.  For a singular matrix Eigen's result is not specified;
this definition gives the zero matrix there. -/
def inverse {F : Type} [LinearOrderedField F] {n : Nat} (S : Matrix (Fin n) (Fin n) F) :
    Matrix (Fin n) (Fin n) F :=
  S.det⁻¹ • S.adjugate

/-- Matrix `Zsig` of `UpdateLidar` (line 281): the top two rows of `Xsig_pred_`. -/
def UpdateLidar_Zsig {F : Type} (s : UKF F) : Matrix (Fin 2) (Fin n_sig_) F :=
  fun r i => s.Xsig_pred_ (Fin.castLE (by decide) r) i

/-- Predicted measurement `z_pred` of `UpdateLidar` (lines 298-303). -/
def UpdateLidar_z_pred {F : Type} [LinearOrderedField F] (s : UKF F) : Fin 2 → F :=
  ∑ i : Fin n_sig_, s.weights_ i • fun r => UpdateLidar_Zsig s r i

/-- Innovation covariance `S` of `UpdateLidar` (lines 307-318). -/
def UpdateLidar_S {F : Type} [LinearOrderedField F] (s : UKF F) : Matrix (Fin 2) (Fin 2) F :=
  (∑ i : Fin n_sig_,
      s.weights_ i • vecMulVec (fun r => UpdateLidar_Zsig s r i - UpdateLidar_z_pred s r)
        (fun r => UpdateLidar_Zsig s r i - UpdateLidar_z_pred s r))
    + !![s.std_laspx_ * s.std_laspx_, 0; 0, s.std_laspy_ * s.std_laspy_]

/-- Kalman gain `K = Tc * S.inverse()` of `UpdateLidar` (line 338). -/
def UpdateLidar_K {F : Type} [LinearOrderedField F] (e : Env F) (s : UKF F) :
    Matrix (Fin n_x_) (Fin 2) F :=
  e.UpdateLidar_Tc * inverse (UpdateLidar_S s)

/-- Innovation `z_diff = z - z_pred` of `UpdateLidar` (lines 340-348). -/
def UpdateLidar_z_diff {F : Type} [LinearOrderedField F] (s : UKF F)
    (meas_package : MeasurementPackage F) : Fin 2 → F :=
  let p_x := meas_package.raw 0
  let p_y := meas_package.raw 1
  let z : Fin 2 → F := ![p_x, p_y]
  z - UpdateLidar_z_pred s

/-- The method `UKF::UpdateLidar(meas_package)`: the writes to `x_` and `P_` (lines 351-352). -/
def UpdateLidar {F : Type} [LinearOrderedField F] (e : Env F) (s : UKF F)
    (meas_package : MeasurementPackage F) : UKF F :=
  let K := UpdateLidar_K e s
  let S := UpdateLidar_S s
  { s with
    x_ := s.x_ + K.mulVec (UpdateLidar_z_diff s meas_package)
    P_ := s.P_ - K * S * Kᵀ }

/-- Matrix `Zsig` of `UpdateRadar` (lines 377-394): range, bearing and range rate of
each predicted sigma point. -/
def UpdateRadar_Zsig {F : Type} [LinearOrderedField F] (e : Env F) (s : UKF F) :
    Matrix (Fin 3) (Fin n_sig_) F :=
  fun r i =>
    let p_x := s.Xsig_pred_ 0 i
    let p_y := s.Xsig_pred_ 1 i
    let v := s.Xsig_pred_ 2 i
    let yaw := s.Xsig_pred_ 3 i
    let v_x := v * e.cos yaw
    let v_y := v * e.sin yaw
    ![e.sqrt (p_x * p_x + p_y * p_y),
      e.atan2 p_y p_x,
      (p_x * v_x + p_y * v_y) / e.sqrt (p_x * p_x + p_y * p_y)] r

/-- Predicted measurement `z_pred` of `UpdateRadar` (lines 397-402). -/
def UpdateRadar_z_pred {F : Type} [LinearOrderedField F] (e : Env F) (s : UKF F) : Fin 3 → F :=
  ∑ i : Fin n_sig_, s.weights_ i • fun r => UpdateRadar_Zsig e s r i

/-- A measurement residual with its bearing component (index 1) normalized. -/
def z_diff_normalized {F : Type} [LinearOrderedField F] [FloorRing F] (e : Env F)
    (d : Fin 3 → F) : Fin 3 → F :=
  Function.update d 1 (angle_normalization e.M_PI e.M_PI_pos (d 1))

/-- Innovation covariance `S` of `UpdateRadar` (lines 405-425). -/
def UpdateRadar_S {F : Type} [LinearOrderedField F] [FloorRing F] (e : Env F) (s : UKF F) :
    Matrix (Fin 3) (Fin 3) F :=
  (∑ i : Fin n_sig_,
      s.weights_ i •
        vecMulVec (z_diff_normalized e fun r => UpdateRadar_Zsig e s r i - UpdateRadar_z_pred e s r)
          (z_diff_normalized e fun r => UpdateRadar_Zsig e s r i - UpdateRadar_z_pred e s r))
    + !![s.std_radr_ * s.std_radr_, 0, 0;
         0, s.std_radphi_ * s.std_radphi_, 0;
         0, 0, s.std_radrd_ * s.std_radrd_]

/-- Cross-correlation `Tc` of `UpdateRadar` after the loop of lines 433-448:
the weighted outer products of line 447 added to what `Tc` held. -/
def UpdateRadar_Tc {F : Type} [LinearOrderedField F] [FloorRing F] (e : Env F) (s : UKF F) :
    Matrix (Fin n_x_) (Fin 3) F :=
  e.UpdateRadar_Tc0 +
    ∑ i : Fin n_sig_,
      s.weights_ i •
        vecMulVec (x_diff_normalized e fun r => s.Xsig_pred_ r i - s.x_ r)
          (z_diff_normalized e fun r => UpdateRadar_Zsig e s r i - UpdateRadar_z_pred e s r)

/-- Kalman gain `K = Tc * S.inverse()` of `UpdateRadar` (line 451). -/
def UpdateRadar_K {F : Type} [LinearOrderedField F] [FloorRing F] (e : Env F) (s : UKF F) :
    Matrix (Fin n_x_) (Fin 3) F :=
  UpdateRadar_Tc e s * inverse (UpdateRadar_S e s)

/-- Innovation `z_diff` of `UpdateRadar` (lines 453-468), bearing normalized. -/
def UpdateRadar_z_diff {F : Type} [LinearOrderedField F] [FloorRing F] (e : Env F) (s : UKF F)
    (meas_package : MeasurementPackage F) : Fin 3 → F :=
  let ro := meas_package.raw 0
  let theta := meas_package.raw 1
  let ro_dot := meas_package.raw 2
  let z : Fin 3 → F := ![ro, theta, ro_dot]
  z_diff_normalized e (z - UpdateRadar_z_pred e s)

/-- The local `NIS_radar` of `UpdateRadar` (line 471). -/
def UpdateRadar_NIS {F : Type} [LinearOrderedField F] [FloorRing F] (e : Env F) (s : UKF F)
    (meas_package : MeasurementPackage F) : F :=
  vecMul (UpdateRadar_z_diff e s meas_package) (inverse (UpdateRadar_S e s))
    ⬝ᵥ UpdateRadar_z_diff e s meas_package

/-- The method `UKF::UpdateRadar(meas_package)`: the writes to `x_` and `P_` (lines 474-475). -/
def UpdateRadar {F : Type} [LinearOrderedField F] [FloorRing F] (e : Env F) (s : UKF F)
    (meas_package : MeasurementPackage F) : UKF F :=
  let K := UpdateRadar_K e s
  let S := UpdateRadar_S e s
  { s with
    x_ := s.x_ + K.mulVec (UpdateRadar_z_diff e s meas_package)
    P_ := s.P_ - K * S * Kᵀ }

/-- The method `UKF::ProcessMeasurement(meas_package)`.  The text written to `std::cout`
is not part of the state. -/
def ProcessMeasurement {F : Type} [LinearOrderedField F] [FloorRing F] (e : Env F) (s : UKF F)
    (meas_package : MeasurementPackage F) : UKF F :=
  if (meas_package.sensor_type_ = SensorType.RADAR ∧ s.use_radar_ = true) ∨
      (meas_package.sensor_type_ = SensorType.LASER ∧ s.use_laser_ = true) then
    if s.is_initialized_ = false then
      let x :=
        if meas_package.sensor_type_ = SensorType.LASER ∧ s.use_laser_ = true then
          Function.update (Function.update s.x_ 0 (meas_package.raw 0)) 1 (meas_package.raw 1)
        else if meas_package.sensor_type_ = SensorType.RADAR ∧ s.use_radar_ = true then
          let rho := meas_package.raw 0
          let theta := meas_package.raw 1
          Function.update (Function.update s.x_ 0 (rho * e.cos theta)) 1 (rho * e.sin theta)
        else s.x_
      { s with x_ := x, time_us_ := meas_package.timestamp_, is_initialized_ := true }
    else
      let dt : F := ((meas_package.timestamp_ - s.time_us_ : Int) : F) / 1000000.0
      let s1 := Prediction e { s with time_us_ := meas_package.timestamp_ } dt
      if meas_package.sensor_type_ = SensorType.LASER ∧ s.use_laser_ = true then
        UpdateLidar e s1 meas_package
      else if meas_package.sensor_type_ = SensorType.RADAR ∧ s.use_radar_ = true then
        UpdateRadar e s1 meas_package
      else s1
  else s

/-- A sample environment over `ℚ`, for running the embedding on concrete
inputs.  Its functions are stand-ins, not approximations of the library's. -/
def sampleEnv : Env ℚ where
  cos := fun _ => 1
  sin := fun _ => 0
  sqrt := fun x => x
  atan2 := fun _ _ => 0
  M_PI := 355 / 113
  M_PI_pos := by norm_num
  llt_matrixL := fun P => P
  UpdateLidar_Tc := 0
  UpdateRadar_Tc0 := 0

/-- The indices at which lines 231-236 of `Prediction` write `weights_`, in
program order, for an augmented dimension `n_aug`: index 0, then the loop
`for (int i = 1; i < n_sig_ + 1; i++)` with `n_sig_ = 2*n_aug + 1`.  The fold
of `setWeights` runs over the tail of this list. -/
def weightLoopIndices (n_aug : Nat) : List Nat :=
  0 :: List.range' 1 (2 * n_aug + 1)

/-- Shape (rows, columns) of an Eigen product `A * B`, which requires the
columns of `A` to be as many as the rows of `B`; `none` when they are not. -/
def mulShape (a b : Nat × Nat) : Option (Nat × Nat) :=
  if a.2 = b.1 then some (a.1, b.2) else none

/-- Shape of an Eigen sum `A + B` (or `A += B`), which requires equal shapes;
`none` when they differ. -/
def addShape (a b : Nat × Nat) : Option (Nat × Nat) :=
  if a = b then some a else none

/-- Shapes in line 334 of `UpdateLidar`,
`Tc += weights_(i) * z_diff.transpose() * x_diff`: `Tc` is `n_x_ x n_z`
(line 323, `n_z = 2`), `z_diff.transpose()` is `1 x n_z` (a residual of
`Zsig.col(i)`), `x_diff` is `n_x_ x 1`. -/
def UpdateLidar_Tc_step_shape : Option (Nat × Nat) :=
  (mulShape (1, 2) (n_x_, 1)).bind (addShape (n_x_, 2))

/-- Shapes in line 447 of `UpdateRadar`,
`Tc = Tc + weights_(i) * x_diff * z_diff.transpose()`: `Tc` is `n_z x n_z`
(line 430, `n_z = 3`), `x_diff` is `n_x_ x 1`, `z_diff.transpose()` is
`1 x n_z`. -/
def UpdateRadar_Tc_step_shape : Option (Nat × Nat) :=
  (mulShape (n_x_, 1) (1, 3)).bind (addShape (3, 3))

/-- Shapes of the same two steps with the cross-correlation formed as the
outer product `x_diff * z_diff.transpose()` and accumulated in an
`n_x_ x n_z` matrix. -/
def outerProduct_Tc_step_shape (n_z : Nat) : Option (Nat × Nat) :=
  (mulShape (n_x_, 1) (1, n_z)).bind (addShape (n_x_, n_z))

/-- An environment with the given library functions, a Cholesky routine that
returns `L`, and zero in the two cross-correlation values that the source
leaves undefined. -/
def envOf {F : Type} [LinearOrderedField F] (cos sin sqrt : F → F) (atan2 : F → F → F)
    (M_PI : F) (hpi : 0 < M_PI) (L : Matrix (Fin n_aug_) (Fin n_aug_) F) : Env F where
  cos := cos
  sin := sin
  sqrt := sqrt
  atan2 := atan2
  M_PI := M_PI
  M_PI_pos := hpi
  llt_matrixL := fun _ => L
  UpdateLidar_Tc := 0
  UpdateRadar_Tc0 := 0

/-- The curved-path formula for px (line 202), used when `fabs(yawd) > 0.001`. -/
def curvedPath_px {F : Type} [LinearOrderedField F] (e : Env F) (delta_t p_x v yaw yawd : F) : F :=
  p_x + v / yawd * e.sin (yaw + yawd * delta_t)

/-- The curved-path formula for py (line 203), used when `fabs(yawd) > 0.001`. -/
def curvedPath_py {F : Type} [LinearOrderedField F] (e : Env F) (delta_t p_y v yaw yawd : F) : F :=
  p_y + v / yawd * (e.cos yaw - e.cos (yaw + yawd * delta_t))

/-- The straight-line formula for px (line 207). -/
def straightLine_px {F : Type} [LinearOrderedField F] (e : Env F) (delta_t p_x v yaw : F) : F :=
  p_x + v * delta_t * e.cos yaw

/-- The straight-line formula for py (line 208). -/
def straightLine_py {F : Type} [LinearOrderedField F] (e : Env F) (delta_t p_y v yaw : F) : F :=
  p_y + v * delta_t * e.sin yaw

/-- The quadratic form of a square matrix is nowhere negative: `uᵀ M u ≥ 0`
for every vector `u`. -/
def PosSemidefForm {F : Type} [LinearOrderedField F] {n : Nat} (M : Matrix (Fin n) (Fin n) F) :
    Prop :=
  ∀ u : Fin n → F, 0 ≤ u ⬝ᵥ M.mulVec u

/-- The quadratic form of a square matrix is positive: `uᵀ M u > 0` for every
non-zero vector `u`. -/
def PosDefForm {F : Type} [LinearOrderedField F] {n : Nat} (M : Matrix (Fin n) (Fin n) F) :
    Prop :=
  ∀ u : Fin n → F, u ≠ 0 → 0 < u ⬝ᵥ M.mulVec u

/-- A lower-triangular matrix with positive diagonal (for `c > 0`), used as
the Cholesky factor of the augmented covariance of `wideYawState c`: rows 0
to 2 and 4 to 6 are diagonal, row 3 (yaw) is `[c, c, c, c, 0, 0, 0]`. -/
def wideYawL {F : Type} [LinearOrderedField F] (c : F) : Matrix (Fin n_aug_) (Fin n_aug_) F :=
  !![0.2, 0, 0, 0, 0, 0, 0;
     0, 0.2, 0, 0, 0, 0, 0;
     0, 0, 0.2, 0, 0, 0, 0;
     c, c, c, c, 0, 0, 0;
     0, 0, 0, 0, 0.0005, 0, 0;
     0, 0, 0, 0, 0, 2.0, 0;
     0, 0, 0, 0, 0, 0, 0.4]

/-- An initialized filter with the default noise configuration, state mean
`[0, 0, 63/80, 0, 0]` and the covariance whose augmented form is
`wideYawL c * (wideYawL c)ᵀ`: the yaw variance is `4*c*c` and yaw is
correlated with px, py and v. -/
def wideYawState {F : Type} [LinearOrderedField F] (c : F) : UKF F :=
  { UKF.UKF ⟨![0, 0, 63 / 80, 0, 0], 0, 0, 0⟩ with
    is_initialized_ := true
    P_ := !![0.04, 0, 0, 0.2 * c, 0;
             0, 0.04, 0, 0.2 * c, 0;
             0, 0, 0.04, 0.2 * c, 0;
             0.2 * c, 0.2 * c, 0.2 * c, 4 * (c * c), 0;
             0, 0, 0, 0, 0.00000025] }

theorem whileAbove_of_le {F : Type} [LinearOrderedField F] [FloorRing F] (M_PI : F)
    (hpi : 0 < M_PI) (a : F) (h : a ≤ M_PI) : whileAbove M_PI hpi a = a := by
  rw [whileAbove, if_neg (not_lt.mpr h)]

theorem whileBelow_of_ge {F : Type} [LinearOrderedField F] [FloorRing F] (M_PI : F)
    (hpi : 0 < M_PI) (a : F) (h : -M_PI ≤ a) : whileBelow M_PI hpi a = a := by
  rw [whileBelow, if_neg (not_lt.mpr h)]

theorem whileAbove_le {F : Type} [LinearOrderedField F] [FloorRing F] (M_PI : F)
    (hpi : 0 < M_PI) (a : F) : whileAbove M_PI hpi a ≤ M_PI := by
  induction a using whileAbove.induct M_PI hpi with
  | case1 a h ih => rw [whileAbove, if_pos h]; exact ih
  | case2 a h => rw [whileAbove, if_neg h]; exact not_lt.mp h

theorem whileAbove_gt {F : Type} [LinearOrderedField F] [FloorRing F] (M_PI : F)
    (hpi : 0 < M_PI) (a : F) (ha : -M_PI < a) : -M_PI < whileAbove M_PI hpi a := by
  induction a using whileAbove.induct M_PI hpi with
  | case1 a h ih => rw [whileAbove, if_pos h]; exact ih (by linarith)
  | case2 a h => rw [whileAbove, if_neg h]; exact ha

theorem whileAbove_mod {F : Type} [LinearOrderedField F] [FloorRing F] (M_PI : F)
    (hpi : 0 < M_PI) (a : F) : ∃ k : ℤ, whileAbove M_PI hpi a = a + 2 * M_PI * (k : F) := by
  induction a using whileAbove.induct M_PI hpi with
  | case1 a h ih =>
    obtain ⟨k, hk⟩ := ih
    refine ⟨k - 1, ?_⟩
    rw [whileAbove, if_pos h, hk]
    push_cast
    ring
  | case2 a h => exact ⟨0, by rw [whileAbove, if_neg h]; simp⟩

theorem whileBelow_ge {F : Type} [LinearOrderedField F] [FloorRing F] (M_PI : F)
    (hpi : 0 < M_PI) (a : F) : -M_PI ≤ whileBelow M_PI hpi a := by
  induction a using whileBelow.induct M_PI hpi with
  | case1 a h ih => rw [whileBelow, if_pos h]; exact ih
  | case2 a h => rw [whileBelow, if_neg h]; exact not_lt.mp h

theorem whileBelow_le {F : Type} [LinearOrderedField F] [FloorRing F] (M_PI : F)
    (hpi : 0 < M_PI) (a : F) (ha : a ≤ M_PI) : whileBelow M_PI hpi a ≤ M_PI := by
  induction a using whileBelow.induct M_PI hpi with
  | case1 a h ih => rw [whileBelow, if_pos h]; exact ih (by linarith)
  | case2 a h => rw [whileBelow, if_neg h]; exact ha

theorem whileBelow_mod {F : Type} [LinearOrderedField F] [FloorRing F] (M_PI : F)
    (hpi : 0 < M_PI) (a : F) : ∃ k : ℤ, whileBelow M_PI hpi a = a + 2 * M_PI * (k : F) := by
  induction a using whileBelow.induct M_PI hpi with
  | case1 a h ih =>
    obtain ⟨k, hk⟩ := ih
    refine ⟨k + 1, ?_⟩
    rw [whileBelow, if_pos h, hk]
    push_cast
    ring
  | case2 a h => exact ⟨0, by rw [whileBelow, if_neg h]; simp⟩

/-- The normalized angle lies between `-M_PI` and `M_PI`, both ends included. -/
theorem angle_normalization_mem_Icc {F : Type} [LinearOrderedField F] [FloorRing F] (M_PI : F)
    (hpi : 0 < M_PI) (a : F) :
    -M_PI ≤ angle_normalization M_PI hpi a ∧ angle_normalization M_PI hpi a ≤ M_PI :=
  ⟨whileBelow_ge M_PI hpi _, whileBelow_le M_PI hpi _ (whileAbove_le M_PI hpi a)⟩

/-- C5 (as amended): for every input `a` the angle normalization (while
`a > M_PI` subtract `2*M_PI`; while `a < -M_PI` add `2*M_PI`) returns a value
in the closed interval `[-M_PI, M_PI]`; the value is above `-M_PI`, hence in
`(-M_PI, M_PI]`, whenever the input is above `-M_PI`. -/
theorem angle_normalization_range {F : Type} [LinearOrderedField F] [FloorRing F] (M_PI : F)
    (hpi : 0 < M_PI) (a : F) :
    -M_PI ≤ angle_normalization M_PI hpi a ∧ angle_normalization M_PI hpi a ≤ M_PI ∧
      (-M_PI < a → -M_PI < angle_normalization M_PI hpi a) := by
  refine ⟨(angle_normalization_mem_Icc M_PI hpi a).1, (angle_normalization_mem_Icc M_PI hpi a).2,
    fun ha => ?_⟩
  have h := whileAbove_gt M_PI hpi a ha
  unfold angle_normalization
  rw [whileBelow_of_ge M_PI hpi _ h.le]
  exact h

/-- Witness of C5 (as amended) on the reals, at `M_PI = π` and `a = 10`. -/
theorem angle_normalization_range_witness :
    (0 : ℝ) < Real.pi ∧
      (-Real.pi ≤ angle_normalization Real.pi Real.pi_pos 10 ∧
        angle_normalization Real.pi Real.pi_pos 10 ≤ Real.pi ∧
        (-Real.pi < 10 → -Real.pi < angle_normalization Real.pi Real.pi_pos 10)) :=
  ⟨Real.pi_pos, angle_normalization_range Real.pi Real.pi_pos 10⟩

/-- Counterexample to C5 as stated: the input `-π` is returned unchanged, and
`-π` is not inside the half-open interval `(-π, π]`. -/
theorem angle_normalization_neg_pi :
    angle_normalization Real.pi Real.pi_pos (-Real.pi) = -Real.pi ∧
      ¬ (-Real.pi < angle_normalization Real.pi Real.pi_pos (-Real.pi) ∧
          angle_normalization Real.pi Real.pi_pos (-Real.pi) ≤ Real.pi) := by
  have h : angle_normalization Real.pi Real.pi_pos (-Real.pi) = -Real.pi := by
    unfold angle_normalization
    rw [whileAbove_of_le Real.pi Real.pi_pos _ (by linarith [Real.pi_pos]),
      whileBelow_of_ge Real.pi Real.pi_pos _ le_rfl]
  refine ⟨h, ?_⟩
  rw [h]
  exact fun hc => lt_irrefl _ hc.1

/-- C6: for every input `a` the angle normalization returns the input modulo
`2*M_PI`: the result is `a + 2*M_PI*k` for some integer `k`. -/
theorem angle_normalization_mod {F : Type} [LinearOrderedField F] [FloorRing F] (M_PI : F)
    (hpi : 0 < M_PI) (a : F) :
    ∃ k : ℤ, angle_normalization M_PI hpi a = a + 2 * M_PI * (k : F) := by
  obtain ⟨k1, h1⟩ := whileAbove_mod M_PI hpi a
  obtain ⟨k2, h2⟩ := whileBelow_mod M_PI hpi (whileAbove M_PI hpi a)
  refine ⟨k1 + k2, ?_⟩
  unfold angle_normalization
  rw [h2, h1]
  push_cast
  ring

/-- Witness of C6 on the reals, at `M_PI = π` and `a = 10`. -/
theorem angle_normalization_mod_witness :
    (0 : ℝ) < Real.pi ∧
      ∃ k : ℤ, angle_normalization Real.pi Real.pi_pos 10 = 10 + 2 * Real.pi * (k : ℝ) :=
  ⟨Real.pi_pos, angle_normalization_mod Real.pi Real.pi_pos 10⟩

/-- C7: the angle normalization is idempotent: normalizing a normalized value
returns it unchanged. -/
theorem angle_normalization_idem {F : Type} [LinearOrderedField F] [FloorRing F] (M_PI : F)
    (hpi : 0 < M_PI) (a : F) :
    angle_normalization M_PI hpi (angle_normalization M_PI hpi a) =
      angle_normalization M_PI hpi a := by
  have h := angle_normalization_mem_Icc M_PI hpi a
  generalize angle_normalization M_PI hpi a = r at h
  unfold angle_normalization
  rw [whileAbove_of_le M_PI hpi r h.2, whileBelow_of_ge M_PI hpi r h.1]

/-- Witness of C7 on the reals, at `M_PI = π` and `a = 10`. -/
theorem angle_normalization_idem_witness :
    (0 : ℝ) < Real.pi ∧
      angle_normalization Real.pi Real.pi_pos (angle_normalization Real.pi Real.pi_pos 10) =
        angle_normalization Real.pi Real.pi_pos 10 :=
  ⟨Real.pi_pos, angle_normalization_idem Real.pi Real.pi_pos 10⟩
/-! ## Weights and sigma points -/

/-- A run of writes of one value `v`: the cells whose index is in the list hold
`v`, the others keep their content. -/
theorem foldl_writeAt {F : Type} {n : Nat} (l : List Nat) (v : F) (w : Fin n → F) (j : Fin n) :
    (l.foldl (fun acc i => writeAt acc i v) w) j = if j.val ∈ l then v else w j := by
  induction l generalizing w with
  | nil => simp
  | cons i l ih =>
    rw [List.foldl_cons, ih]
    by_cases h1 : j.val ∈ l
    · simp [h1]
    · by_cases h2 : j.val = i
      · simp [h1, h2, writeAt]
      · simp [h1, h2, writeAt]

/-- The weight vector after the weight-setting code, cell by cell. -/
theorem setWeights_apply {F : Type} [LinearOrderedField F] (n_aug : Nat) (lambda : F)
    (w : Fin (2 * n_aug + 1) → F) (j : Fin (2 * n_aug + 1)) :
    setWeights n_aug lambda w j =
      if j.val = 0 then lambda / (lambda + (n_aug : F)) else 0.5 / ((n_aug : F) + lambda) := by
  unfold setWeights
  simp only [foldl_writeAt, List.mem_range'_1]
  by_cases h : j.val = 0
  · simp [h, writeAt]
  · have h1 : 1 ≤ j.val ∧ j.val < 1 + (2 * n_aug + 1) := ⟨by omega, by have := j.isLt; omega⟩
    simp [h, h1]

/-- C3: for every augmented dimension `n_aug` and spreading parameter `lambda`
with `lambda + n_aug ≠ 0`, the weight vector set by `Prediction` has
`weight[0] = lambda/(lambda+n_aug)` and each of the remaining `2*n_aug` entries
equal to `1/(2*(lambda+n_aug))`, and its `2*n_aug+1` entries sum to exactly 1. -/
theorem weights_sum_one {F : Type} [LinearOrderedField F] (n_aug : Nat) (lambda : F)
    (w : Fin (2 * n_aug + 1) → F) (h : lambda + (n_aug : F) ≠ 0) :
    (∀ j : Fin (2 * n_aug + 1), setWeights n_aug lambda w j =
        if j.val = 0 then lambda / (lambda + (n_aug : F)) else 1 / (2 * (lambda + (n_aug : F)))) ∧
      ∑ j : Fin (2 * n_aug + 1), setWeights n_aug lambda w j = 1 := by
  have h' : (n_aug : F) + lambda ≠ 0 := by rwa [add_comm]
  constructor
  · intro j
    rw [setWeights_apply]
    by_cases hj : j.val = 0
    · simp [hj]
    · simp only [hj, if_false]
      have h05 : (0.5 : F) = 1 / 2 := by norm_num
      rw [h05]
      field_simp
      ring
  · rw [Fin.sum_univ_succ]
    simp only [setWeights_apply, Fin.val_zero, if_true, Fin.val_succ, Nat.succ_ne_zero, if_false,
      Finset.sum_const, Finset.card_univ, Fintype.card_fin, nsmul_eq_mul]
    push_cast
    field_simp
    ring

/-- Witness of C3: the filter's own configuration `n_aug = 7`,
`lambda = 3 - 7`, whose 15 weights sum to 1. -/
theorem weights_sum_one_witness :
    lambda_ ℚ + ((7 : ℕ) : ℚ) ≠ 0 ∧
      ((∀ j : Fin (2 * 7 + 1), setWeights 7 (lambda_ ℚ) (fun _ => 0) j =
          if j.val = 0 then lambda_ ℚ / (lambda_ ℚ + ((7 : ℕ) : ℚ))
          else 1 / (2 * (lambda_ ℚ + ((7 : ℕ) : ℚ)))) ∧
        ∑ j : Fin (2 * 7 + 1), setWeights 7 (lambda_ ℚ) (fun _ => 0) j = 1) :=
  ⟨by norm_num [lambda_], weights_sum_one 7 (lambda_ ℚ) (fun _ => 0) (by norm_num [lambda_])⟩

/-- The filter's 15 weights: `-4/3` followed by fourteen `1/6`. -/
theorem filter_weights {F : Type} [LinearOrderedField F] (w : Fin n_sig_ → F) (j : Fin n_sig_) :
    setWeights n_aug_ (lambda_ F) w j = if j.val = 0 then -4 / 3 else 1 / 6 := by
  rw [setWeights_apply]
  unfold lambda_
  norm_num

/-- A sum over the 15 sigma points, split as in the generating loop: the
central point, the seven points `i+1` and the seven points `i+1+n_aug_`. -/
theorem sum_sigma_split {M : Type} [AddCommMonoid M] (g : Fin n_sig_ → M) :
    ∑ i : Fin n_sig_, g i =
      g 0 + ∑ k : Fin n_aug_, g ⟨k.val + 1, by have := k.isLt; simp only [n_sig_, n_aug_] at *; omega⟩
        + ∑ k : Fin n_aug_,
            g ⟨k.val + 1 + n_aug_, by have := k.isLt; simp only [n_sig_, n_aug_] at *; omega⟩ := by
  change ∑ i : Fin 15, g i = g 0 + ∑ k : Fin 7, g ⟨k.val + 1, _⟩ + ∑ k : Fin 7, g ⟨k.val + 1 + 7, _⟩
  simp only [Fin.sum_univ_succ, Fin.sum_univ_zero, Fin.val_zero, Fin.val_succ]
  simp only [add_zero, add_assoc]
  rfl

/-- Sigma point 0 is the augmented mean. -/
theorem Xsig_aug_zero {F : Type} [LinearOrderedField F] (sqrt : F → F) (x_aug : Fin n_aug_ → F)
    (L : Matrix (Fin n_aug_) (Fin n_aug_) F) (r : Fin n_aug_) :
    Xsig_aug sqrt x_aug L r 0 = x_aug r := by
  simp [Xsig_aug]

/-- Sigma point `k+1` is the mean plus the scaled column `k` of `L`. -/
theorem Xsig_aug_plus {F : Type} [LinearOrderedField F] (sqrt : F → F) (x_aug : Fin n_aug_ → F)
    (L : Matrix (Fin n_aug_) (Fin n_aug_) F) (r k : Fin n_aug_) (h : k.val + 1 < n_sig_) :
    Xsig_aug sqrt x_aug L r ⟨k.val + 1, h⟩
      = x_aug r + sqrt (lambda_ F + (n_aug_ : F)) * L r k := by
  have hk := k.isLt
  simp [Xsig_aug, hk]

/-- Sigma point `k+1+n_aug_` is the mean minus the scaled column `k` of `L`. -/
theorem Xsig_aug_minus {F : Type} [LinearOrderedField F] (sqrt : F → F) (x_aug : Fin n_aug_ → F)
    (L : Matrix (Fin n_aug_) (Fin n_aug_) F) (r k : Fin n_aug_) (h : k.val + 1 + n_aug_ < n_sig_) :
    Xsig_aug sqrt x_aug L r ⟨k.val + 1 + n_aug_, h⟩
      = x_aug r - sqrt (lambda_ F + (n_aug_ : F)) * L r k := by
  have h0 : ¬ (k.val + 1 + n_aug_ = 0) := by omega
  have h1 : ¬ (k.val + 1 + n_aug_ < n_aug_ + 1) := by omega
  have hk : (⟨k.val + 1 + n_aug_ - 1 - n_aug_, by have := k.isLt; omega⟩ : Fin n_aug_) = k :=
    Fin.ext (by show k.val + 1 + n_aug_ - 1 - n_aug_ = k.val; omega)
  unfold Xsig_aug
  simp only [h0, h1, if_false, dite_false, hk]

/-- C2: for every augmented mean `x_aug` and every augmented covariance `P_aug`
with a square root `L` (`L*Lᵀ = P_aug`), the 15 sigma points generated in
`Prediction`, combined with the filter's weights, have weighted mean `x_aug`
and weighted covariance `∑ w_i (X_i - x_aug)(X_i - x_aug)ᵀ = P_aug`.  The
function `sqrt` has to square back to `lambda_ + n_aug_ = 3`. -/
theorem sigma_points_round_trip {F : Type} [LinearOrderedField F] (sqrt : F → F)
    (x_aug : Fin n_aug_ → F) (P_aug L : Matrix (Fin n_aug_) (Fin n_aug_) F)
    (w : Fin n_sig_ → F) (hL : L * Lᵀ = P_aug)
    (hsqrt : sqrt (lambda_ F + (n_aug_ : F)) * sqrt (lambda_ F + (n_aug_ : F))
      = lambda_ F + (n_aug_ : F)) :
    (∑ i : Fin n_sig_, setWeights n_aug_ (lambda_ F) w i • (fun r => Xsig_aug sqrt x_aug L r i))
        = x_aug ∧
      (∑ i : Fin n_sig_, setWeights n_aug_ (lambda_ F) w i •
          vecMulVec (fun r => Xsig_aug sqrt x_aug L r i - x_aug r)
            (fun r => Xsig_aug sqrt x_aug L r i - x_aug r)) = P_aug := by
  have hl : lambda_ F + (n_aug_ : F) = 3 := by unfold lambda_; norm_num
  rw [hl] at hsqrt
  constructor
  · funext r
    simp only [Finset.sum_apply, Pi.smul_apply, smul_eq_mul, filter_weights]
    rw [sum_sigma_split, add_assoc, ← Finset.sum_add_distrib]
    simp only [Xsig_aug_zero, Xsig_aug_plus, Xsig_aug_minus, hl]
    have e : ∀ k : Fin n_aug_,
        ((if k.val + 1 = 0 then (-4 / 3 : F) else 1 / 6) * (x_aug r + sqrt 3 * L r k)
          + (if k.val + 1 + n_aug_ = 0 then (-4 / 3 : F) else 1 / 6)
            * (x_aug r - sqrt 3 * L r k)) = 1 / 3 * x_aug r := by
      intro k
      simp
      ring
    simp only [e, Finset.sum_const, Finset.card_univ, Fintype.card_fin, nsmul_eq_mul]
    simp
    ring
  · subst hL
    ext r c
    simp only [Matrix.sum_apply, Matrix.smul_apply, smul_eq_mul, filter_weights, vecMulVec_apply,
      Matrix.mul_apply, Matrix.transpose_apply]
    rw [sum_sigma_split, add_assoc, ← Finset.sum_add_distrib]
    simp only [Xsig_aug_zero, Xsig_aug_plus, Xsig_aug_minus, hl]
    have e : ∀ k : Fin n_aug_,
        ((if k.val + 1 = 0 then (-4 / 3 : F) else 1 / 6)
            * ((x_aug r + sqrt 3 * L r k - x_aug r) * (x_aug c + sqrt 3 * L c k - x_aug c))
          + (if k.val + 1 + n_aug_ = 0 then (-4 / 3 : F) else 1 / 6)
            * ((x_aug r - sqrt 3 * L r k - x_aug r) * (x_aug c - sqrt 3 * L c k - x_aug c)))
          = L r k * L c k := by
      intro k
      simp
      linear_combination (1 / 3 * L r k * L c k) * hsqrt
    simp only [e]
    simp

/-- Witness of C2 on the reals: `std::sqrt` is the real square root, the
augmented mean is `[1, 2, 3, 4, 5, 0, 0]` and `P_aug = L = 1`. -/
theorem sigma_points_round_trip_witness :
    ((1 : Matrix (Fin n_aug_) (Fin n_aug_) ℝ) * 1ᵀ = 1 ∧
      Real.sqrt (lambda_ ℝ + (n_aug_ : ℝ)) * Real.sqrt (lambda_ ℝ + (n_aug_ : ℝ))
        = lambda_ ℝ + (n_aug_ : ℝ)) ∧
      ((∑ i : Fin n_sig_, setWeights n_aug_ (lambda_ ℝ) 0 i •
            (fun r => Xsig_aug Real.sqrt ![1, 2, 3, 4, 5, 0, 0] 1 r i))
          = ![1, 2, 3, 4, 5, 0, 0] ∧
        (∑ i : Fin n_sig_, setWeights n_aug_ (lambda_ ℝ) 0 i •
            vecMulVec (fun r => Xsig_aug Real.sqrt ![1, 2, 3, 4, 5, 0, 0] 1 r i
                - (![1, 2, 3, 4, 5, 0, 0] : Fin n_aug_ → ℝ) r)
              (fun r => Xsig_aug Real.sqrt ![1, 2, 3, 4, 5, 0, 0] 1 r i
                - (![1, 2, 3, 4, 5, 0, 0] : Fin n_aug_ → ℝ) r)) = 1) :=
  ⟨⟨by simp, Real.mul_self_sqrt (by unfold lambda_; norm_num)⟩,
    sigma_points_round_trip Real.sqrt ![1, 2, 3, 4, 5, 0, 0] 1 1 0 (by simp)
      (Real.mul_self_sqrt (by unfold lambda_; norm_num))⟩

/-! ## Measurement update with a laser reading -/

/-- A measurement whose sensor flag is false leaves the whole filter state as
it was, whether or not the filter is initialized. -/
theorem ProcessMeasurement_flag_off {F : Type} [LinearOrderedField F] [FloorRing F] (e : Env F)
    (s : UKF F) (meas_package : MeasurementPackage F)
    (h : (meas_package.sensor_type_ = SensorType.LASER ∧ s.use_laser_ = false) ∨
      (meas_package.sensor_type_ = SensorType.RADAR ∧ s.use_radar_ = false)) :
    ProcessMeasurement e s meas_package = s := by
  unfold ProcessMeasurement
  rcases h with ⟨h1, h2⟩ | ⟨h1, h2⟩ <;> simp [h1, h2]

/-- The first branch of `ProcessMeasurement`: on a filter that is not
initialized, a measurement whose sensor flag is true writes components 0 and 1
of the state mean, the clock and the flag, and nothing else. -/
theorem ProcessMeasurement_first {F : Type} [LinearOrderedField F] [FloorRing F] (e : Env F)
    (s : UKF F) (meas_package : MeasurementPackage F) (hi : s.is_initialized_ = false)
    (h : (meas_package.sensor_type_ = SensorType.LASER ∧ s.use_laser_ = true) ∨
      (meas_package.sensor_type_ = SensorType.RADAR ∧ s.use_radar_ = true)) :
    ProcessMeasurement e s meas_package =
      { s with
        x_ := match meas_package.sensor_type_ with
          | SensorType.LASER =>
            Function.update (Function.update s.x_ 0 (meas_package.raw 0)) 1 (meas_package.raw 1)
          | SensorType.RADAR =>
            Function.update
              (Function.update s.x_ 0 (meas_package.raw 0 * e.cos (meas_package.raw 1))) 1
              (meas_package.raw 0 * e.sin (meas_package.raw 1))
        time_us_ := meas_package.timestamp_
        is_initialized_ := true } := by
  unfold ProcessMeasurement
  rcases h with ⟨h1, h2⟩ | ⟨h1, h2⟩ <;> simp [h1, h2, hi]

/-- C1, the code at a failing input: a filter constructed over storage whose
`x_` cells hold 7, given the first LASER reading `[1.0, 0.8]`, becomes
initialized with state mean `[1.0, 0.8, 7, 7, 7]`, which is not
`[1.0, 0.8, 0, 0, 0]`: components 2, 3 and 4 are never written. -/
theorem ProcessMeasurement_first_laser_uninit :
    (ProcessMeasurement sampleEnv (UKF.UKF ⟨fun _ => 7, 0, 0, 0⟩)
        ⟨0, SensorType.LASER, [1.0, 0.8]⟩).is_initialized_ = true ∧
      (ProcessMeasurement sampleEnv (UKF.UKF ⟨fun _ => 7, 0, 0, 0⟩)
        ⟨0, SensorType.LASER, [1.0, 0.8]⟩).x_ = ![1.0, 0.8, 7, 7, 7] ∧
      (ProcessMeasurement sampleEnv (UKF.UKF ⟨fun _ => 7, 0, 0, 0⟩)
        ⟨0, SensorType.LASER, [1.0, 0.8]⟩).x_ ≠ ![1.0, 0.8, 0, 0, 0] := by
  have hx : (ProcessMeasurement sampleEnv (UKF.UKF ⟨fun _ => 7, 0, 0, 0⟩)
      ⟨0, SensorType.LASER, [1.0, 0.8]⟩).x_ = ![1.0, 0.8, 7, 7, 7] := by
    rw [ProcessMeasurement_first _ _ _ rfl (Or.inl ⟨rfl, rfl⟩)]
    funext i
    fin_cases i <;> simp [UKF.UKF, MeasurementPackage.raw, Function.update, Fin.ext_iff]
  refine ⟨?_, hx, ?_⟩
  · rw [ProcessMeasurement_first _ _ _ rfl (Or.inl ⟨rfl, rfl⟩)]
  · rw [hx]
    intro hc
    have h2 := congrFun hc 2
    simp at h2

/-- What the first measurement does to a freshly constructed filter, for every
content of the unwritten storage: the filter becomes initialized, components 0
and 1 of the state mean are the reading (LASER) or `rho*cos(theta)`,
`rho*sin(theta)` (RADAR), and components 2, 3, 4 keep what the storage held. -/
theorem ProcessMeasurement_fresh {F : Type} [LinearOrderedField F] [FloorRing F] (e : Env F)
    (u : Uninit F) (meas_package : MeasurementPackage F) :
    (ProcessMeasurement e (UKF.UKF u) meas_package).is_initialized_ = true ∧
      (ProcessMeasurement e (UKF.UKF u) meas_package).x_ 0 =
        (match meas_package.sensor_type_ with
          | SensorType.LASER => meas_package.raw 0
          | SensorType.RADAR => meas_package.raw 0 * e.cos (meas_package.raw 1)) ∧
      (ProcessMeasurement e (UKF.UKF u) meas_package).x_ 1 =
        (match meas_package.sensor_type_ with
          | SensorType.LASER => meas_package.raw 1
          | SensorType.RADAR => meas_package.raw 0 * e.sin (meas_package.raw 1)) ∧
      (ProcessMeasurement e (UKF.UKF u) meas_package).x_ 2 = u.x_ 2 ∧
      (ProcessMeasurement e (UKF.UKF u) meas_package).x_ 3 = u.x_ 3 ∧
      (ProcessMeasurement e (UKF.UKF u) meas_package).x_ 4 = u.x_ 4 := by
  have h : (meas_package.sensor_type_ = SensorType.LASER ∧ (UKF.UKF u).use_laser_ = true) ∨
      (meas_package.sensor_type_ = SensorType.RADAR ∧ (UKF.UKF u).use_radar_ = true) := by
    cases hs : meas_package.sensor_type_
    · exact Or.inl ⟨rfl, rfl⟩
    · exact Or.inr ⟨rfl, rfl⟩
  rw [ProcessMeasurement_first e _ _ rfl h]
  cases hs : meas_package.sensor_type_ <;> simp [UKF.UKF, Function.update]

/-- C8, the code at a failing input: with `use_laser_ = false` a filter that is
not initialized is left untouched by a LASER measurement: it stays
uninitialized and its clock does not take the timestamp; the same holds with
`use_radar_ = false` and a RADAR measurement. -/
theorem ProcessMeasurement_flag_off_uninit :
    (ProcessMeasurement sampleEnv { UKF.UKF ⟨0, 0, 0, 0⟩ with use_laser_ := false }
        ⟨1000, SensorType.LASER, [1.0, 0.8]⟩).is_initialized_ = false ∧
      (ProcessMeasurement sampleEnv { UKF.UKF ⟨0, 0, 0, 0⟩ with use_laser_ := false }
        ⟨1000, SensorType.LASER, [1.0, 0.8]⟩).time_us_ = 0 ∧
      (ProcessMeasurement sampleEnv { UKF.UKF ⟨0, 0, 0, 0⟩ with use_laser_ := false }
        ⟨1000, SensorType.LASER, [1.0, 0.8]⟩).x_ = 0 ∧
      (ProcessMeasurement sampleEnv { UKF.UKF ⟨0, 0, 0, 0⟩ with use_radar_ := false }
        ⟨1000, SensorType.RADAR, [1.0, 0.8, 0.5]⟩).is_initialized_ = false ∧
      (ProcessMeasurement sampleEnv { UKF.UKF ⟨0, 0, 0, 0⟩ with use_radar_ := false }
        ⟨1000, SensorType.RADAR, [1.0, 0.8, 0.5]⟩).time_us_ = 0 := by
  rw [ProcessMeasurement_flag_off _ _ _ (Or.inl ⟨rfl, rfl⟩),
    ProcessMeasurement_flag_off _ _ _ (Or.inr ⟨rfl, rfl⟩)]
  exact ⟨rfl, rfl, rfl, rfl, rfl⟩

/-- C9: for every initialized filter state, if the flag of the incoming
measurement's sensor type is false (`use_laser_ = false` with a LASER
measurement, or `use_radar_ = false` with a RADAR measurement),
`ProcessMeasurement` leaves the state mean, the covariance, the filter clock,
the predicted sigma points and the initialized flag unchanged. -/
theorem ProcessMeasurement_ignores_disabled_sensor {F : Type} [LinearOrderedField F]
    [FloorRing F] (e : Env F) (s : UKF F) (meas_package : MeasurementPackage F)
    (hi : s.is_initialized_ = true)
    (h : (meas_package.sensor_type_ = SensorType.LASER ∧ s.use_laser_ = false) ∨
      (meas_package.sensor_type_ = SensorType.RADAR ∧ s.use_radar_ = false)) :
    (ProcessMeasurement e s meas_package).x_ = s.x_ ∧
      (ProcessMeasurement e s meas_package).P_ = s.P_ ∧
      (ProcessMeasurement e s meas_package).time_us_ = s.time_us_ ∧
      (ProcessMeasurement e s meas_package).Xsig_pred_ = s.Xsig_pred_ ∧
      (ProcessMeasurement e s meas_package).is_initialized_ = true := by
  rw [ProcessMeasurement_flag_off e s meas_package h]
  exact ⟨rfl, rfl, rfl, rfl, hi⟩

/-- Witness of C9: an initialized filter with `use_laser_ = false` and a LASER
measurement. -/
theorem ProcessMeasurement_ignores_disabled_sensor_witness :
    ({ UKF.UKF ⟨0, 0, 0, 0⟩ with use_laser_ := false, is_initialized_ := true }
        : UKF ℚ).is_initialized_ = true ∧
      (((⟨1000, SensorType.LASER, [1.0, 0.8]⟩ : MeasurementPackage ℚ).sensor_type_
            = SensorType.LASER ∧
          ({ UKF.UKF ⟨0, 0, 0, 0⟩ with use_laser_ := false, is_initialized_ := true }
            : UKF ℚ).use_laser_ = false) ∨
        ((⟨1000, SensorType.LASER, [1.0, 0.8]⟩ : MeasurementPackage ℚ).sensor_type_
            = SensorType.RADAR ∧
          ({ UKF.UKF ⟨0, 0, 0, 0⟩ with use_laser_ := false, is_initialized_ := true }
            : UKF ℚ).use_radar_ = false)) ∧
      (ProcessMeasurement sampleEnv
          { UKF.UKF ⟨0, 0, 0, 0⟩ with use_laser_ := false, is_initialized_ := true }
          ⟨1000, SensorType.LASER, [1.0, 0.8]⟩).time_us_ = 0 :=
  ⟨rfl, Or.inl ⟨rfl, rfl⟩,
    (ProcessMeasurement_ignores_disabled_sensor sampleEnv
      { UKF.UKF ⟨0, 0, 0, 0⟩ with use_laser_ := false, is_initialized_ := true }
      ⟨1000, SensorType.LASER, [1.0, 0.8]⟩ rfl (Or.inl ⟨rfl, rfl⟩)).2.2.1⟩

/-- The constructor's covariance is `diag(0.15, 0.15, 1, 1, 1)`. -/
theorem UKF_P_diagonal {F : Type} [LinearOrderedField F] (u : Uninit F) :
    (UKF.UKF u).P_ = Matrix.diagonal ![0.15, 0.15, 1, 1, 1] := by
  ext i j
  fin_cases i <;> fin_cases j <;> simp [UKF.UKF, Matrix.diagonal, Fin.ext_iff, vecHead, vecTail]

/-- C10: `ProcessMeasurement` on a filter that is not initialized performs no
prediction and no update.  For a filter as constructed (with any setting of
the two sensor flags) and every first accepted measurement, the covariance
afterwards is the constructor's `diag(0.15, 0.15, 1, 1, 1)`, the filter clock
is the measurement's timestamp, and the predicted sigma points and the
weights, which `Prediction` would write, are untouched. -/
theorem ProcessMeasurement_first_no_prediction {F : Type} [LinearOrderedField F] [FloorRing F]
    (e : Env F) (u : Uninit F) (use_laser use_radar : Bool)
    (meas_package : MeasurementPackage F)
    (h : (meas_package.sensor_type_ = SensorType.LASER ∧ use_laser = true) ∨
      (meas_package.sensor_type_ = SensorType.RADAR ∧ use_radar = true)) :
    (ProcessMeasurement e { UKF.UKF u with use_laser_ := use_laser, use_radar_ := use_radar }
        meas_package).P_ = Matrix.diagonal ![0.15, 0.15, 1, 1, 1] ∧
      (ProcessMeasurement e { UKF.UKF u with use_laser_ := use_laser, use_radar_ := use_radar }
        meas_package).time_us_ = meas_package.timestamp_ ∧
      (ProcessMeasurement e { UKF.UKF u with use_laser_ := use_laser, use_radar_ := use_radar }
        meas_package).Xsig_pred_ = u.Xsig_pred_ ∧
      (ProcessMeasurement e { UKF.UKF u with use_laser_ := use_laser, use_radar_ := use_radar }
        meas_package).weights_ = u.weights_ := by
  rw [ProcessMeasurement_first e _ _ rfl h]
  exact ⟨UKF_P_diagonal u, rfl, rfl, rfl⟩

/-- Witness of C10: the default filter and a first RADAR measurement at
timestamp 1000. -/
theorem ProcessMeasurement_first_no_prediction_witness :
    (((⟨1000, SensorType.RADAR, [1.28, 0.68, 3.0]⟩ : MeasurementPackage ℚ).sensor_type_
          = SensorType.LASER ∧ true = true) ∨
      ((⟨1000, SensorType.RADAR, [1.28, 0.68, 3.0]⟩ : MeasurementPackage ℚ).sensor_type_
          = SensorType.RADAR ∧ true = true)) ∧
      (ProcessMeasurement sampleEnv
          { UKF.UKF ⟨0, 0, 0, 0⟩ with use_laser_ := true, use_radar_ := true }
          ⟨1000, SensorType.RADAR, [1.28, 0.68, 3.0]⟩).time_us_ = 1000 :=
  ⟨Or.inr ⟨rfl, rfl⟩,
    (ProcessMeasurement_first_no_prediction sampleEnv ⟨0, 0, 0, 0⟩ true true
      ⟨1000, SensorType.RADAR, [1.28, 0.68, 3.0]⟩ (Or.inr ⟨rfl, rfl⟩)).2.1⟩

/-! ## Bounds of the weight loop -/

/-- C19, the code at its only input: the weight-setting code of `Prediction`
writes the indices `0, 1, ..., 15`; the last one, `n_sig_ = 15`, is not below
the length 15 with which the constructor allocates `weights_`, so not every
write is in bounds.  The loop bound is `i < n_sig_ + 1`. -/
theorem weightLoopIndices_out_of_bounds :
    weightLoopIndices n_aug_ = [0, 1, 2, 3, 4, 5, 6, 7, 8, 9, 10, 11, 12, 13, 14, 15] ∧
      n_sig_ ∈ weightLoopIndices n_aug_ ∧
      ¬ (∀ i ∈ weightLoopIndices n_aug_, i < n_sig_) := by
  refine ⟨by decide, by decide, ?_⟩
  intro h
  exact absurd (h n_sig_ (by decide)) (by decide)

/-- The weight vector of `setWeights` is the result of the writes at
`weightLoopIndices`: index 0 first, then the rest of the list. -/
theorem setWeights_eq_fold {F : Type} [LinearOrderedField F] (n_aug : Nat) (lambda : F)
    (w : Fin (2 * n_aug + 1) → F) :
    setWeights n_aug lambda w =
      match weightLoopIndices n_aug with
      | [] => w
      | i0 :: rest =>
        rest.foldl (fun acc i => writeAt acc i (0.5 / ((n_aug : F) + lambda)))
          (writeAt w i0 (lambda / (lambda + (n_aug : F)))) :=
  rfl

/-! ## Shapes of the cross-correlation steps -/

/-- C17, the code: the product of line 334 of `UpdateLidar`,
`z_diff.transpose() * x_diff`, multiplies a `1 x 2` row by a `5 x 1` column
and is not conformable, whereas the outer product of the claim,
`x_diff * z_diff.transpose()`, gives the `5 x 2` summand that `Tc` can
accumulate. -/
theorem UpdateLidar_Tc_step_not_conformable :
    UpdateLidar_Tc_step_shape = none ∧ outerProduct_Tc_step_shape 2 = some (5, 2) := by
  decide

/-- C18, the code: the sum of line 447 of `UpdateRadar` adds the `5 x 3` outer
product to `Tc`, which line 430 allocates as `3 x 3`; the two shapes differ,
so the accumulation is not conformable, whereas with `Tc` allocated as
`n_x_ x n_z` it is. -/
theorem UpdateRadar_Tc_step_not_conformable :
    UpdateRadar_Tc_step_shape = none ∧ mulShape (n_x_, 1) (1, 3) = some (5, 3) ∧
      outerProduct_Tc_step_shape 3 = some (5, 3) := by
  decide

/-- With `UpdateRadar_Tc0 = 0` the cross-correlation of `UpdateRadar` is the
weighted sum of outer products of the normalized state and measurement
residuals. -/
theorem UpdateRadar_Tc_of_zero {F : Type} [LinearOrderedField F] [FloorRing F] (e : Env F)
    (s : UKF F) (h0 : e.UpdateRadar_Tc0 = 0) :
    UpdateRadar_Tc e s =
      ∑ i : Fin n_sig_,
        s.weights_ i •
          vecMulVec (x_diff_normalized e fun r => s.Xsig_pred_ r i - s.x_ r)
            (z_diff_normalized e fun r => UpdateRadar_Zsig e s r i - UpdateRadar_z_pred e s r) := by
  unfold UpdateRadar_Tc
  rw [h0, zero_add]

/-! ## The motion model at zero elapsed time and at small yaw rate -/

/-- With `delta_t = 0` the straight-line branch returns the state part of the
sigma point. -/
theorem predictSigmaPoint_zero_straight {F : Type} [LinearOrderedField F] (e : Env F)
    (X : Fin n_aug_ → F) (h : ¬ |X 4| > 0.001) :
    predictSigmaPoint e 0 X = ![X 0, X 1, X 2, X 3, X 4] := by
  unfold predictSigmaPoint
  simp [h]

/-- With `delta_t = 0` the curved-path branch returns the state part of the
sigma point except in px, which gains `v/yawd * sin(yaw)`. -/
theorem predictSigmaPoint_zero_curved {F : Type} [LinearOrderedField F] (e : Env F)
    (X : Fin n_aug_ → F) (h : |X 4| > 0.001) :
    predictSigmaPoint e 0 X = ![X 0 + X 2 / X 4 * e.sin (X 3), X 1, X 2, X 3, X 4] := by
  unfold predictSigmaPoint
  simp [h]

/-- C20, the code at a failing input: with `delta_t = 0` the sigma point
`[0, 0, 1, π/2, 1, 0, 0]` (curved-path branch, real sine and cosine) is mapped
to `[1, 0, 1, π/2, 1]`, not to `[0, 0, 1, π/2, 1]`: line 202 adds
`v/yawd * sin(yaw + yawd*delta_t)` without subtracting `v/yawd * sin(yaw)`. -/
theorem predictSigmaPoint_zero_dt_not_identity :
    predictSigmaPoint
        (envOf Real.cos Real.sin Real.sqrt (fun y x => Complex.arg ⟨x, y⟩) Real.pi Real.pi_pos 1)
        0 ![0, 0, 1, Real.pi / 2, 1, 0, 0] = ![1, 0, 1, Real.pi / 2, 1] ∧
      predictSigmaPoint
        (envOf Real.cos Real.sin Real.sqrt (fun y x => Complex.arg ⟨x, y⟩) Real.pi Real.pi_pos 1)
        0 ![0, 0, 1, Real.pi / 2, 1, 0, 0] ≠ ![0, 0, 1, Real.pi / 2, 1] := by
  have h : predictSigmaPoint
      (envOf Real.cos Real.sin Real.sqrt (fun y x => Complex.arg ⟨x, y⟩) Real.pi Real.pi_pos 1)
      0 ![0, 0, 1, Real.pi / 2, 1, 0, 0] = ![1, 0, 1, Real.pi / 2, 1] := by
    rw [predictSigmaPoint_zero_curved _ _ (by norm_num)]
    simp [envOf]
  refine ⟨h, ?_⟩
  rw [h]
  intro hc
  have h0 := congrFun hc 0
  simp at h0

/-- With zero noise components the predicted px, py of a sigma point are the
curved-path formulas when `fabs(yawd) > 0.001` and the straight-line formulas
otherwise. -/
theorem predictSigmaPoint_px_py {F : Type} [LinearOrderedField F] (e : Env F)
    (delta_t p_x p_y v yaw yawd : F) :
    predictSigmaPoint e delta_t ![p_x, p_y, v, yaw, yawd, 0, 0] 0 =
        (if |yawd| > 0.001 then curvedPath_px e delta_t p_x v yaw yawd
          else straightLine_px e delta_t p_x v yaw) ∧
      predictSigmaPoint e delta_t ![p_x, p_y, v, yaw, yawd, 0, 0] 1 =
        (if |yawd| > 0.001 then curvedPath_py e delta_t p_y v yaw yawd
          else straightLine_py e delta_t p_y v yaw) := by
  have h5 : (![p_x, p_y, v, yaw, yawd, 0, 0] : Fin n_aug_ → F) 5 = 0 := rfl
  unfold predictSigmaPoint curvedPath_px curvedPath_py straightLine_px straightLine_py
  by_cases h : |yawd| > 0.001 <;> simp [h, h5]

/-- C13, the code at a failing input: for `px = py = 0`, `v = 1`, `yaw = π/2`,
`delta_t = 1` (real sine and cosine) the curved-path px of line 202 is
`cos(yawd)/yawd`; it grows without bound as `yawd` decreases to 0 and does not
converge to the straight-line value `px + v*delta_t*cos(yaw) = 0`. -/
theorem curvedPath_px_no_straight_line_limit :
    Filter.Tendsto
        (fun w : ℝ =>
          curvedPath_px
            (envOf Real.cos Real.sin Real.sqrt (fun y x => Complex.arg ⟨x, y⟩) Real.pi
              Real.pi_pos 1) 1 0 1 (Real.pi / 2) w)
        (nhdsWithin 0 (Set.Ioi 0)) Filter.atTop ∧
      ¬ Filter.Tendsto
        (fun w : ℝ =>
          curvedPath_px
            (envOf Real.cos Real.sin Real.sqrt (fun y x => Complex.arg ⟨x, y⟩) Real.pi
              Real.pi_pos 1) 1 0 1 (Real.pi / 2) w)
        (nhdsWithin 0 {0}ᶜ)
        (nhds (straightLine_px
          (envOf Real.cos Real.sin Real.sqrt (fun y x => Complex.arg ⟨x, y⟩) Real.pi
            Real.pi_pos 1) 1 0 1 (Real.pi / 2))) := by
  have hf : (fun w : ℝ =>
      curvedPath_px
        (envOf Real.cos Real.sin Real.sqrt (fun y x => Complex.arg ⟨x, y⟩) Real.pi
          Real.pi_pos 1) 1 0 1 (Real.pi / 2) w) = fun w : ℝ => w⁻¹ * Real.cos w := by
    funext w
    show 0 + 1 / w * Real.sin (Real.pi / 2 + w * 1) = w⁻¹ * Real.cos w
    rw [mul_one, add_comm (Real.pi / 2) w, Real.sin_add_pi_div_two]
    ring
  have hcos : Filter.Tendsto (fun w : ℝ => Real.cos w) (nhdsWithin 0 (Set.Ioi 0)) (nhds 1) := by
    have h := (Real.continuous_cos.tendsto 0).mono_left
      (nhdsWithin_le_nhds : nhdsWithin (0 : ℝ) (Set.Ioi 0) ≤ nhds 0)
    simpa using h
  have htop : Filter.Tendsto (fun w : ℝ => w⁻¹ * Real.cos w) (nhdsWithin 0 (Set.Ioi 0))
      Filter.atTop :=
    Filter.Tendsto.atTop_mul (by norm_num : (0 : ℝ) < 1) tendsto_inv_zero_atTop hcos
  rw [hf]
  refine ⟨htop, fun hlim => ?_⟩
  have hmono : nhdsWithin (0 : ℝ) (Set.Ioi 0) ≤ nhdsWithin 0 {0}ᶜ :=
    nhdsWithin_mono 0 (fun x hx => ne_of_gt hx)
  exact not_tendsto_nhds_of_tendsto_atTop htop _ (hlim.mono_left hmono)

/-- The curved-path py of line 203 does converge to the straight-line py as
the yaw rate tends to 0, for every `py`, `v`, `yaw` and `delta_t` (real sine
and cosine): the formula is a difference of cosines. -/
theorem curvedPath_py_straight_line_limit (p_y v yaw delta_t : ℝ) :
    Filter.Tendsto
      (fun w : ℝ =>
        curvedPath_py
          (envOf Real.cos Real.sin Real.sqrt (fun y x => Complex.arg ⟨x, y⟩) Real.pi
            Real.pi_pos 1) delta_t p_y v yaw w)
      (nhdsWithin 0 {0}ᶜ)
      (nhds (straightLine_py
        (envOf Real.cos Real.sin Real.sqrt (fun y x => Complex.arg ⟨x, y⟩) Real.pi
          Real.pi_pos 1) delta_t p_y v yaw)) := by
  have h1 : HasDerivAt (fun w : ℝ => yaw + w * delta_t) delta_t 0 := by
    simpa using ((hasDerivAt_id (0 : ℝ)).mul_const delta_t).const_add yaw
  have hd : HasDerivAt (fun w : ℝ => Real.cos (yaw + w * delta_t))
      (-Real.sin (yaw + 0 * delta_t) * delta_t) 0 :=
    (Real.hasDerivAt_cos (yaw + 0 * delta_t)).comp 0 h1
  have hs := hasDerivAt_iff_tendsto_slope.mp hd
  have ht := (hs.const_mul (-v)).const_add p_y
  have hlim : p_y + -v * (-Real.sin (yaw + 0 * delta_t) * delta_t)
      = straightLine_py
        (envOf Real.cos Real.sin Real.sqrt (fun y x => Complex.arg ⟨x, y⟩) Real.pi
          Real.pi_pos 1) delta_t p_y v yaw := by
    show _ = p_y + v * delta_t * Real.sin yaw
    rw [zero_mul, add_zero]
    ring
  rw [hlim] at ht
  refine ht.congr (fun w => ?_)
  show p_y + -v * slope (fun w : ℝ => Real.cos (yaw + w * delta_t)) 0 w
    = p_y + v / w * (Real.cos yaw - Real.cos (yaw + w * delta_t))
  rw [slope_def_field]
  simp only [zero_mul, add_zero, sub_zero]
  ring

/-! ## Symmetry of the covariance -/

/-- A weighted sum of outer products of vectors with themselves is symmetric. -/
theorem sum_smul_vecMulVec_self_isSymm {F : Type} [LinearOrderedField F] {n m : Nat}
    (w : Fin m → F) (d : Fin m → Fin n → F) :
    (∑ i : Fin m, w i • vecMulVec (d i) (d i)).IsSymm := by
  ext a b
  simp only [Matrix.transpose_apply, Matrix.sum_apply, Matrix.smul_apply, vecMulVec_apply,
    smul_eq_mul]
  exact Finset.sum_congr rfl (fun i _ => by ring)

/-- The covariance written by `Prediction` is symmetric. -/
theorem Prediction_P_isSymm {F : Type} [LinearOrderedField F] [FloorRing F] (e : Env F)
    (s : UKF F) (delta_t : F) : (Prediction e s delta_t).P_.IsSymm := by
  unfold Prediction
  exact sum_smul_vecMulVec_self_isSymm _ _

/-- The innovation covariance of `UpdateLidar` is symmetric. -/
theorem UpdateLidar_S_isSymm {F : Type} [LinearOrderedField F] (s : UKF F) :
    (UpdateLidar_S s).IsSymm := by
  unfold UpdateLidar_S
  refine Matrix.IsSymm.add (sum_smul_vecMulVec_self_isSymm _ _) ?_
  ext a b
  fin_cases a <;> fin_cases b <;> simp [vecHead, vecTail]

/-- The innovation covariance of `UpdateRadar` is symmetric. -/
theorem UpdateRadar_S_isSymm {F : Type} [LinearOrderedField F] [FloorRing F] (e : Env F)
    (s : UKF F) : (UpdateRadar_S e s).IsSymm := by
  unfold UpdateRadar_S
  refine Matrix.IsSymm.add (sum_smul_vecMulVec_self_isSymm _ _) ?_
  ext a b
  fin_cases a <;> fin_cases b <;> simp [vecHead, vecTail]

/-- For symmetric `P` and `S` and every gain `K`, `P - K*S*Kᵀ` is symmetric. -/
theorem sub_mul_mul_transpose_isSymm {F : Type} [LinearOrderedField F] {n m : Nat}
    (P : Matrix (Fin n) (Fin n) F) (S : Matrix (Fin m) (Fin m) F) (K : Matrix (Fin n) (Fin m) F)
    (hP : P.IsSymm) (hS : S.IsSymm) : (P - K * S * Kᵀ).IsSymm := by
  unfold Matrix.IsSymm at *
  rw [Matrix.transpose_sub, Matrix.transpose_mul, Matrix.transpose_mul, Matrix.transpose_transpose,
    hP, hS, Matrix.mul_assoc]

/-- C14: the state covariance stays symmetric.  For every filter state, every
`delta_t` and every measurement, the covariance after `Prediction` is
symmetric, and so is the covariance `P - K*S*Kᵀ` after the following
`UpdateLidar` or `UpdateRadar` step, for every gain `K`. -/
theorem covariance_stays_symmetric {F : Type} [LinearOrderedField F] [FloorRing F] (e : Env F)
    (s : UKF F) (delta_t : F) (meas_package : MeasurementPackage F) :
    (Prediction e s delta_t).P_.IsSymm ∧
      (UpdateLidar e (Prediction e s delta_t) meas_package).P_.IsSymm ∧
      (UpdateRadar e (Prediction e s delta_t) meas_package).P_.IsSymm :=
  ⟨Prediction_P_isSymm e s delta_t,
    sub_mul_mul_transpose_isSymm _ _ _ (Prediction_P_isSymm e s delta_t) (UpdateLidar_S_isSymm _),
    sub_mul_mul_transpose_isSymm _ _ _ (Prediction_P_isSymm e s delta_t)
      (UpdateRadar_S_isSymm e _)⟩

/-! ## Elapsed time in `ProcessMeasurement` -/

/-- The weighted mean of the augmented sigma points is the augmented mean, in
every component, for every matrix `L` and every value of the square root. -/
theorem sigma_points_weighted_mean {F : Type} [LinearOrderedField F] (sqrt : F → F)
    (x_aug : Fin n_aug_ → F) (L : Matrix (Fin n_aug_) (Fin n_aug_) F) (w : Fin n_sig_ → F)
    (r : Fin n_aug_) :
    ∑ i : Fin n_sig_, Xsig_aug sqrt x_aug L r i * setWeights n_aug_ (lambda_ F) w i = x_aug r := by
  simp only [filter_weights]
  rw [sum_sigma_split, add_assoc, ← Finset.sum_add_distrib]
  simp only [Xsig_aug_zero, Xsig_aug_plus, Xsig_aug_minus]
  have e : ∀ k : Fin n_aug_,
      ((x_aug r + sqrt (lambda_ F + (n_aug_ : F)) * L r k)
          * (if k.val + 1 = 0 then (-4 / 3 : F) else 1 / 6)
        + (x_aug r - sqrt (lambda_ F + (n_aug_ : F)) * L r k)
          * (if k.val + 1 + n_aug_ = 0 then (-4 / 3 : F) else 1 / 6)) = 1 / 3 * x_aug r := by
    intro k
    simp
    ring
  simp only [e, Finset.sum_const, Finset.card_univ, Fintype.card_fin, nsmul_eq_mul]
  simp
  ring

/-- The predicted mean of speed, yaw and yaw rate: these three components of
the motion model are linear in the sigma point, so their weighted means are
`v`, `yaw + yawd*delta_t` and `yawd`, for every environment. -/
theorem Prediction_x_linear {F : Type} [LinearOrderedField F] [FloorRing F] (e : Env F)
    (s : UKF F) (delta_t : F) :
    (Prediction e s delta_t).x_ 2 = s.x_ 2 ∧
      (Prediction e s delta_t).x_ 3 = s.x_ 3 + s.x_ 4 * delta_t ∧
      (Prediction e s delta_t).x_ 4 = s.x_ 4 := by
  have h2 := sigma_points_weighted_mean e.sqrt (x_aug s) (e.llt_matrixL (P_aug s)) s.weights_ 2
  have h3 := sigma_points_weighted_mean e.sqrt (x_aug s) (e.llt_matrixL (P_aug s)) s.weights_ 3
  have h4 := sigma_points_weighted_mean e.sqrt (x_aug s) (e.llt_matrixL (P_aug s)) s.weights_ 4
  have h5 := sigma_points_weighted_mean e.sqrt (x_aug s) (e.llt_matrixL (P_aug s)) s.weights_ 5
  have h6 := sigma_points_weighted_mean e.sqrt (x_aug s) (e.llt_matrixL (P_aug s)) s.weights_ 6
  have a2 : x_aug s 2 = s.x_ 2 := rfl
  have a3 : x_aug s 3 = s.x_ 3 := rfl
  have a4 : x_aug s 4 = s.x_ 4 := rfl
  have a5 : x_aug s 5 = 0 := rfl
  have a6 : x_aug s 6 = 0 := rfl
  rw [a2] at h2
  rw [a3] at h3
  rw [a4] at h4
  rw [a5] at h5
  rw [a6] at h6
  refine ⟨?_, ?_, ?_⟩
  · show ∑ i : Fin n_sig_, (_ + _ * delta_t) * _ = _
    simp only [add_mul, Finset.sum_add_distrib, mul_right_comm _ delta_t, ← Finset.sum_mul, h2, h5]
    ring
  · show ∑ i : Fin n_sig_, (_ + _ * delta_t + 0.5 * _ * delta_t * delta_t) * _ = _
    simp only [add_mul, Finset.sum_add_distrib, mul_right_comm _ delta_t, mul_assoc (0.5 : F),
      ← Finset.sum_mul, ← Finset.mul_sum, h3, h4, h6]
    ring
  · show ∑ i : Fin n_sig_, (_ + _ * delta_t) * _ = _
    simp only [add_mul, Finset.sum_add_distrib, mul_right_comm _ delta_t, ← Finset.sum_mul, h4, h6]
    ring

/-- The second branch of `ProcessMeasurement`: on an initialized filter, a
measurement whose sensor flag is true sets the clock, runs `Prediction` with
the elapsed time in seconds and then the update of the measurement's sensor. -/
theorem ProcessMeasurement_initialized {F : Type} [LinearOrderedField F] [FloorRing F]
    (e : Env F) (s : UKF F) (meas_package : MeasurementPackage F)
    (hi : s.is_initialized_ = true)
    (h : (meas_package.sensor_type_ = SensorType.LASER ∧ s.use_laser_ = true) ∨
      (meas_package.sensor_type_ = SensorType.RADAR ∧ s.use_radar_ = true)) :
    ProcessMeasurement e s meas_package =
      match meas_package.sensor_type_ with
      | SensorType.LASER =>
        UpdateLidar e
          (Prediction e { s with time_us_ := meas_package.timestamp_ }
            (((meas_package.timestamp_ - s.time_us_ : Int) : F) / 1000000.0)) meas_package
      | SensorType.RADAR =>
        UpdateRadar e
          (Prediction e { s with time_us_ := meas_package.timestamp_ }
            (((meas_package.timestamp_ - s.time_us_ : Int) : F) / 1000000.0)) meas_package := by
  unfold ProcessMeasurement
  rcases h with ⟨h1, h2⟩ | ⟨h1, h2⟩
  · have h3 : (Prediction e { s with time_us_ := meas_package.timestamp_ }
        (((meas_package.timestamp_ - s.time_us_ : Int) : F) / 1000000.0)).use_laser_ = true := h2
    simp [h1, h2, hi]
  · have h3 : (Prediction e { s with time_us_ := meas_package.timestamp_ }
        (((meas_package.timestamp_ - s.time_us_ : Int) : F) / 1000000.0)).use_radar_ = true := h2
    simp [h1, h2, hi]

/-- C12 (as amended): `ProcessMeasurement` does not test the sign of the
elapsed time.  For every initialized filter and every accepted measurement
whose timestamp is smaller than the filter clock, the elapsed time
`(timestamp - clock)/1000000` is negative, and the result is the update of the
measurement's sensor applied to `Prediction` run with that negative `delta_t`,
the clock having been set to the timestamp. -/
theorem ProcessMeasurement_negative_elapsed_time {F : Type} [LinearOrderedField F]
    [FloorRing F] (e : Env F) (s : UKF F) (meas_package : MeasurementPackage F)
    (hi : s.is_initialized_ = true)
    (h : (meas_package.sensor_type_ = SensorType.LASER ∧ s.use_laser_ = true) ∨
      (meas_package.sensor_type_ = SensorType.RADAR ∧ s.use_radar_ = true))
    (hlt : meas_package.timestamp_ < s.time_us_) :
    (((meas_package.timestamp_ - s.time_us_ : Int) : F) / 1000000.0 < 0) ∧
      ProcessMeasurement e s meas_package =
        (match meas_package.sensor_type_ with
        | SensorType.LASER =>
          UpdateLidar e
            (Prediction e { s with time_us_ := meas_package.timestamp_ }
              (((meas_package.timestamp_ - s.time_us_ : Int) : F) / 1000000.0)) meas_package
        | SensorType.RADAR =>
          UpdateRadar e
            (Prediction e { s with time_us_ := meas_package.timestamp_ }
              (((meas_package.timestamp_ - s.time_us_ : Int) : F) / 1000000.0)) meas_package) ∧
      (ProcessMeasurement e s meas_package).time_us_ = meas_package.timestamp_ := by
  have hdt : (((meas_package.timestamp_ - s.time_us_ : Int) : F) / 1000000.0 < 0) := by
    have hneg : ((meas_package.timestamp_ - s.time_us_ : Int) : F) < 0 := by
      exact_mod_cast sub_neg.mpr hlt
    exact div_neg_of_neg_of_pos hneg (by norm_num)
  refine ⟨hdt, ProcessMeasurement_initialized e s meas_package hi h, ?_⟩
  rw [ProcessMeasurement_initialized e s meas_package hi h]
  cases meas_package.sensor_type_ <;> rfl

/-- Witness of C12 (as amended): an initialized filter with clock 1000000 and
a LASER measurement with timestamp 0. -/
theorem ProcessMeasurement_negative_elapsed_time_witness :
    (((0 - 1000000 : Int) : ℚ) / 1000000.0 < 0) ∧
      (ProcessMeasurement sampleEnv
        { UKF.UKF ⟨![0, 0, 0, 0, 1], 0, 0, 1000000⟩ with is_initialized_ := true }
        ⟨0, SensorType.LASER, [0, 0]⟩).time_us_ = 0 :=
  ⟨(ProcessMeasurement_negative_elapsed_time sampleEnv
      { UKF.UKF ⟨![0, 0, 0, 0, 1], 0, 0, 1000000⟩ with is_initialized_ := true }
      ⟨0, SensorType.LASER, [0, 0]⟩ rfl (Or.inl ⟨rfl, rfl⟩) (by decide)).1,
    (ProcessMeasurement_negative_elapsed_time sampleEnv
      { UKF.UKF ⟨![0, 0, 0, 0, 1], 0, 0, 1000000⟩ with is_initialized_ := true }
      ⟨0, SensorType.LASER, [0, 0]⟩ rfl (Or.inl ⟨rfl, rfl⟩) (by decide)).2.2⟩

/-- Counterexample to C12 as stated: an initialized filter with state mean
`[0, 0, 0, 0, 1]` and clock 1000000 receives a LASER measurement with
timestamp 0.  The prediction is executed with `delta_t = -1`: the yaw
component of the state mean goes from 0 to `0 + 1*(-1) = -1`, and the weights,
which only `Prediction` writes, go from 0 to `-4/3, 1/6, ...`. -/
theorem ProcessMeasurement_negative_elapsed_time_runs_prediction :
    ({ UKF.UKF ⟨![0, 0, 0, 0, 1], 0, 0, 1000000⟩ with is_initialized_ := true } : UKF ℚ).x_ 3 = 0 ∧
      (ProcessMeasurement sampleEnv
        { UKF.UKF ⟨![0, 0, 0, 0, 1], 0, 0, 1000000⟩ with is_initialized_ := true }
        ⟨0, SensorType.LASER, [0, 0]⟩).x_ 3 = -1 ∧
      (ProcessMeasurement sampleEnv
        { UKF.UKF ⟨![0, 0, 0, 0, 1], 0, 0, 1000000⟩ with is_initialized_ := true }
        ⟨0, SensorType.LASER, [0, 0]⟩).weights_ 0 = -4 / 3 := by
  rw [ProcessMeasurement_initialized sampleEnv _ _ rfl (Or.inl ⟨rfl, rfl⟩)]
  refine ⟨rfl, ?_, ?_⟩
  · show (Prediction sampleEnv _ _).x_ 3 + (UpdateLidar_K sampleEnv _).mulVec _ 3 = -1
    have hK : ∀ t : UKF ℚ, UpdateLidar_K sampleEnv t = 0 := by
      intro t
      simp [UpdateLidar_K, sampleEnv]
    rw [hK, (Prediction_x_linear sampleEnv _ _).2.1]
    simp [UKF.UKF]
    norm_num
  · show setWeights n_aug_ (lambda_ ℚ) (0 : Fin n_sig_ → ℚ) 0 = -4 / 3
    rw [filter_weights]
    simp

/-! ## Definiteness of the weighted sums of outer products -/

/-- The quadratic form of an outer product `d dᵀ` is the square of `u·d`. -/
theorem quadForm_vecMulVec {F : Type} [LinearOrderedField F] {n : Nat} (d u : Fin n → F) :
    u ⬝ᵥ (vecMulVec d d).mulVec u = (u ⬝ᵥ d) ^ 2 := by
  rw [sq]
  unfold dotProduct
  rw [Finset.sum_mul_sum]
  simp only [Matrix.mulVec, dotProduct, vecMulVec_apply, Finset.mul_sum]
  refine Finset.sum_congr rfl (fun a _ => Finset.sum_congr rfl (fun b _ => ?_))
  ring

/-- The quadratic form of a weighted sum of outer products. -/
theorem quadForm_weighted_sum {F : Type} [LinearOrderedField F] {n m : Nat} (w : Fin m → F)
    (d : Fin m → Fin n → F) (u : Fin n → F) (t : Finset (Fin m)) :
    u ⬝ᵥ (∑ i in t, w i • vecMulVec (d i) (d i)).mulVec u = ∑ i in t, w i * (u ⬝ᵥ d i) ^ 2 := by
  induction t using Finset.induction_on with
  | empty => simp
  | insert hi ih =>
    rw [Finset.sum_insert hi, Finset.sum_insert hi, Matrix.add_mulVec, dotProduct_add, ih,
      Matrix.smul_mulVec_assoc, dotProduct_smul, quadForm_vecMulVec, smul_eq_mul]

/-- With the filter's weights, a weighted sum of outer products over the 15
sigma points plus `4/3` times the outer product of the central term has the
quadratic form `1/6 * ∑ (u·d_i)²` over the fourteen other terms. -/
theorem quadForm_filter_weights {F : Type} [LinearOrderedField F] {n : Nat}
    (w0 : Fin n_sig_ → F) (d : Fin n_sig_ → Fin n → F) (u : Fin n → F) :
    u ⬝ᵥ ((∑ i : Fin n_sig_, setWeights n_aug_ (lambda_ F) w0 i • vecMulVec (d i) (d i))
        + (4 / 3 : F) • vecMulVec (d 0) (d 0)).mulVec u
      = 1 / 6 * ∑ k : Fin (2 * n_aug_), (u ⬝ᵥ d k.succ) ^ 2 := by
  rw [Matrix.add_mulVec, dotProduct_add, quadForm_weighted_sum, Matrix.smul_mulVec_assoc,
    dotProduct_smul, quadForm_vecMulVec, smul_eq_mul, Fin.sum_univ_succ]
  simp only [filter_weights, Fin.val_zero, if_true, Fin.val_succ, Nat.succ_ne_zero, if_false,
    ← Finset.mul_sum]
  ring

/-- A matrix with a positive quadratic form has a non-zero determinant. -/
theorem PosDefForm_det_ne_zero {F : Type} [LinearOrderedField F] {n : Nat}
    (M : Matrix (Fin n) (Fin n) F) (hM : PosDefForm M) : M.det ≠ 0 := by
  intro h
  obtain ⟨v, hv, hMv⟩ := Matrix.exists_mulVec_eq_zero_iff.mpr h
  have hpos := hM v hv
  rw [hMv, dotProduct_zero] at hpos
  exact lt_irrefl _ hpos

/-- C15 (as amended): for every filter state and every `delta_t`, the
covariance `P` written by `Prediction` plus `4/3` times the outer product of
the residual of the central predicted sigma point (yaw normalized) has a
quadratic form that is nowhere negative: it is `1/6` times the sum of the
outer products of the fourteen other residuals.  The central weight is
`-4/3`, so `P` itself is not claimed to be positive-semidefinite. -/
theorem Prediction_P_plus_central_posSemidef {F : Type} [LinearOrderedField F] [FloorRing F]
    (e : Env F) (s : UKF F) (delta_t : F) :
    PosSemidefForm
      ((Prediction e s delta_t).P_ +
        (4 / 3 : F) •
          vecMulVec
            (x_diff_normalized e fun r =>
              (Prediction e s delta_t).Xsig_pred_ r 0 - (Prediction e s delta_t).x_ r)
            (x_diff_normalized e fun r =>
              (Prediction e s delta_t).Xsig_pred_ r 0 - (Prediction e s delta_t).x_ r)) := by
  intro u
  have h := quadForm_filter_weights s.weights_
    (fun i => x_diff_normalized e fun r =>
      (Prediction e s delta_t).Xsig_pred_ r i - (Prediction e s delta_t).x_ r) u
  have h2 : 0 ≤ 1 / 6 * ∑ k : Fin (2 * n_aug_),
      (u ⬝ᵥ (fun i : Fin n_sig_ => x_diff_normalized e fun r =>
        (Prediction e s delta_t).Xsig_pred_ r i - (Prediction e s delta_t).x_ r) k.succ) ^ 2 :=
    mul_nonneg (by norm_num) (Finset.sum_nonneg (fun k _ => sq_nonneg _))
  exact le_of_le_of_eq h2 h.symm

/-! ## The innovation covariance -/

/-- Quadratic form of a 2x2 diagonal matrix. -/
theorem quadForm_diag_two {F : Type} [LinearOrderedField F] (a b : F) (u : Fin 2 → F) :
    u ⬝ᵥ (!![a, 0; 0, b] : Matrix (Fin 2) (Fin 2) F).mulVec u = a * u 0 ^ 2 + b * u 1 ^ 2 := by
  simp [dotProduct, Matrix.mulVec, Fin.sum_univ_succ]
  ring

/-- Quadratic form of a 3x3 diagonal matrix. -/
theorem quadForm_diag_three {F : Type} [LinearOrderedField F] (a b c : F) (u : Fin 3 → F) :
    u ⬝ᵥ (!![a, 0, 0; 0, b, 0; 0, 0, c] : Matrix (Fin 3) (Fin 3) F).mulVec u
      = a * u 0 ^ 2 + b * u 1 ^ 2 + c * u 2 ^ 2 := by
  simp [dotProduct, Matrix.mulVec, Fin.sum_univ_succ]
  ring

/-- C16 (as amended): under a correct configuration (all measurement-noise
standard deviations strictly positive) and for every state produced by
`Prediction`, the innovation covariance `S` of `UpdateLidar` and of
`UpdateRadar`, plus `4/3` times the outer product of the central measurement
residual `Zsig.col(0) - z_pred`, is positive definite and hence invertible; in
particular `S` is invertible whenever that central residual is zero.  The
central weight is `-4/3`, so `S` itself is not claimed to be invertible. -/
theorem innovation_covariance_plus_central_posDef {F : Type} [LinearOrderedField F]
    [FloorRing F] (e : Env F) (s0 : UKF F) (delta_t : F)
    (hpx : 0 < s0.std_laspx_) (hpy : 0 < s0.std_laspy_) (hr : 0 < s0.std_radr_)
    (hphi : 0 < s0.std_radphi_) (hrd : 0 < s0.std_radrd_) :
    (PosDefForm
        (UpdateLidar_S (Prediction e s0 delta_t) +
          (4 / 3 : F) •
            vecMulVec
              (fun r => UpdateLidar_Zsig (Prediction e s0 delta_t) r 0
                - UpdateLidar_z_pred (Prediction e s0 delta_t) r)
              (fun r => UpdateLidar_Zsig (Prediction e s0 delta_t) r 0
                - UpdateLidar_z_pred (Prediction e s0 delta_t) r)) ∧
      ((fun r => UpdateLidar_Zsig (Prediction e s0 delta_t) r 0
          - UpdateLidar_z_pred (Prediction e s0 delta_t) r) = 0 →
        (UpdateLidar_S (Prediction e s0 delta_t)).det ≠ 0)) ∧
      (PosDefForm
        (UpdateRadar_S e (Prediction e s0 delta_t) +
          (4 / 3 : F) •
            vecMulVec
              (z_diff_normalized e fun r => UpdateRadar_Zsig e (Prediction e s0 delta_t) r 0
                - UpdateRadar_z_pred e (Prediction e s0 delta_t) r)
              (z_diff_normalized e fun r => UpdateRadar_Zsig e (Prediction e s0 delta_t) r 0
                - UpdateRadar_z_pred e (Prediction e s0 delta_t) r)) ∧
      ((z_diff_normalized e fun r => UpdateRadar_Zsig e (Prediction e s0 delta_t) r 0
          - UpdateRadar_z_pred e (Prediction e s0 delta_t) r) = 0 →
        (UpdateRadar_S e (Prediction e s0 delta_t)).det ≠ 0)) := by
  have hL : PosDefForm
      (UpdateLidar_S (Prediction e s0 delta_t) +
        (4 / 3 : F) •
          vecMulVec
            (fun r => UpdateLidar_Zsig (Prediction e s0 delta_t) r 0
              - UpdateLidar_z_pred (Prediction e s0 delta_t) r)
            (fun r => UpdateLidar_Zsig (Prediction e s0 delta_t) r 0
              - UpdateLidar_z_pred (Prediction e s0 delta_t) r)) := by
    intro u hu
    unfold UpdateLidar_S
    rw [add_right_comm, Matrix.add_mulVec, dotProduct_add]
    have h1 := quadForm_filter_weights s0.weights_
      (fun i => fun r => UpdateLidar_Zsig (Prediction e s0 delta_t) r i
        - UpdateLidar_z_pred (Prediction e s0 delta_t) r) u
    have h2 : 0 ≤ 1 / 6 * ∑ k : Fin (2 * n_aug_),
        (u ⬝ᵥ (fun i : Fin n_sig_ => fun r => UpdateLidar_Zsig (Prediction e s0 delta_t) r i
          - UpdateLidar_z_pred (Prediction e s0 delta_t) r) k.succ) ^ 2 :=
      mul_nonneg (by norm_num) (Finset.sum_nonneg (fun k _ => sq_nonneg _))
    have h3 := le_of_le_of_eq h2 h1.symm
    have h4 : 0 < u ⬝ᵥ (!![(Prediction e s0 delta_t).std_laspx_ * (Prediction e s0 delta_t).std_laspx_, 0;
        0, (Prediction e s0 delta_t).std_laspy_ * (Prediction e s0 delta_t).std_laspy_]
          : Matrix (Fin 2) (Fin 2) F).mulVec u := by
      rw [quadForm_diag_two]
      show 0 < s0.std_laspx_ * s0.std_laspx_ * u 0 ^ 2 + s0.std_laspy_ * s0.std_laspy_ * u 1 ^ 2
      have hne : u 0 ≠ 0 ∨ u 1 ≠ 0 := by
        by_contra hc
        push_neg at hc
        exact hu (funext fun i => by fin_cases i <;> simp [hc.1, hc.2])
      rcases hne with h0 | h1
      · have := mul_pos (mul_pos hpx hpx) (pow_pos (abs_pos.mpr h0) 2)
        rw [sq_abs] at this
        have := mul_nonneg (mul_pos hpy hpy).le (sq_nonneg (u 1))
        linarith
      · have := mul_pos (mul_pos hpy hpy) (pow_pos (abs_pos.mpr h1) 2)
        rw [sq_abs] at this
        have := mul_nonneg (mul_pos hpx hpx).le (sq_nonneg (u 0))
        linarith
    exact add_pos_of_nonneg_of_pos h3 h4
  have hR : PosDefForm
      (UpdateRadar_S e (Prediction e s0 delta_t) +
        (4 / 3 : F) •
          vecMulVec
            (z_diff_normalized e fun r => UpdateRadar_Zsig e (Prediction e s0 delta_t) r 0
              - UpdateRadar_z_pred e (Prediction e s0 delta_t) r)
            (z_diff_normalized e fun r => UpdateRadar_Zsig e (Prediction e s0 delta_t) r 0
              - UpdateRadar_z_pred e (Prediction e s0 delta_t) r)) := by
    intro u hu
    unfold UpdateRadar_S
    rw [add_right_comm, Matrix.add_mulVec, dotProduct_add]
    have h1 := quadForm_filter_weights s0.weights_
      (fun i => z_diff_normalized e fun r => UpdateRadar_Zsig e (Prediction e s0 delta_t) r i
        - UpdateRadar_z_pred e (Prediction e s0 delta_t) r) u
    have h2 : 0 ≤ 1 / 6 * ∑ k : Fin (2 * n_aug_),
        (u ⬝ᵥ (fun i : Fin n_sig_ => z_diff_normalized e fun r =>
          UpdateRadar_Zsig e (Prediction e s0 delta_t) r i
            - UpdateRadar_z_pred e (Prediction e s0 delta_t) r) k.succ) ^ 2 :=
      mul_nonneg (by norm_num) (Finset.sum_nonneg (fun k _ => sq_nonneg _))
    have h3 := le_of_le_of_eq h2 h1.symm
    have h4 : 0 < u ⬝ᵥ (!![(Prediction e s0 delta_t).std_radr_ * (Prediction e s0 delta_t).std_radr_, 0, 0;
        0, (Prediction e s0 delta_t).std_radphi_ * (Prediction e s0 delta_t).std_radphi_, 0;
        0, 0, (Prediction e s0 delta_t).std_radrd_ * (Prediction e s0 delta_t).std_radrd_]
          : Matrix (Fin 3) (Fin 3) F).mulVec u := by
      rw [quadForm_diag_three]
      show 0 < s0.std_radr_ * s0.std_radr_ * u 0 ^ 2 + s0.std_radphi_ * s0.std_radphi_ * u 1 ^ 2
        + s0.std_radrd_ * s0.std_radrd_ * u 2 ^ 2
      have hne : u 0 ≠ 0 ∨ u 1 ≠ 0 ∨ u 2 ≠ 0 := by
        by_contra hc
        push_neg at hc
        exact hu (funext fun i => by fin_cases i <;> simp [hc.1, hc.2.1, hc.2.2])
      have n0 := mul_nonneg (mul_pos hr hr).le (sq_nonneg (u 0))
      have n1 := mul_nonneg (mul_pos hphi hphi).le (sq_nonneg (u 1))
      have n2 := mul_nonneg (mul_pos hrd hrd).le (sq_nonneg (u 2))
      rcases hne with h0 | h1 | h2
      · have := mul_pos (mul_pos hr hr) (pow_pos (abs_pos.mpr h0) 2)
        rw [sq_abs] at this
        linarith
      · have := mul_pos (mul_pos hphi hphi) (pow_pos (abs_pos.mpr h1) 2)
        rw [sq_abs] at this
        linarith
      · have := mul_pos (mul_pos hrd hrd) (pow_pos (abs_pos.mpr h2) 2)
        rw [sq_abs] at this
        linarith
    exact add_pos_of_nonneg_of_pos h3 h4
  refine ⟨⟨hL, fun h0 => ?_⟩, ⟨hR, fun h0 => ?_⟩⟩
  · have hz : vecMulVec (0 : Fin 2 → F) (0 : Fin 2 → F) = 0 := by
      ext a b
      simp [vecMulVec_apply]
    rw [h0, hz, smul_zero, add_zero] at hL
    exact PosDefForm_det_ne_zero _ hL
  · have hz : vecMulVec (0 : Fin 3 → F) (0 : Fin 3 → F) = 0 := by
      ext a b
      simp [vecMulVec_apply]
    rw [h0, hz, smul_zero, add_zero] at hR
    exact PosDefForm_det_ne_zero _ hR

/-! ## A state with a wide yaw distribution -/

/-- The entries of `wideYawL c`. -/
theorem wideYawL_apply {F : Type} [LinearOrderedField F] (c : F) (i j : Fin n_aug_) :
    wideYawL c i j =
      if i.val = 3 ∧ j.val ≤ 3 then c
      else if i.val = j.val then
        (if i.val ≤ 2 then 0.2 else if i.val = 4 then 0.0005 else if i.val = 5 then 2.0 else 0.4)
      else 0 := by
  fin_cases i <;> fin_cases j <;> rfl

/-- For `c > 0` the matrix `wideYawL c` is lower triangular with a positive
diagonal, the shape of a Cholesky factor. -/
theorem wideYawL_lower_triangular {F : Type} [LinearOrderedField F] (c : F) (hc : 0 < c) :
    (∀ i j : Fin n_aug_, i.val < j.val → wideYawL c i j = 0) ∧
      ∀ i : Fin n_aug_, 0 < wideYawL c i i := by
  constructor
  · intro i j hij
    rw [wideYawL_apply]
    have h1 : ¬ (i.val = 3 ∧ j.val ≤ 3) := by omega
    have h2 : ¬ (i.val = j.val) := by omega
    simp only [h1, h2, if_false]
  · intro i
    rw [wideYawL_apply]
    fin_cases i <;> norm_num [hc]

/-- The entries of the augmented covariance of `wideYawState c`. -/
theorem P_aug_wideYawState_apply {F : Type} [LinearOrderedField F] (c : F) (i j : Fin n_aug_) :
    P_aug (wideYawState c) i j =
      if i.val = j.val then
        (if i.val ≤ 2 then 0.04 else if i.val = 3 then 4 * (c * c)
          else if i.val = 4 then 0.00000025 else if i.val = 5 then 2.0 * 2.0 else 0.4 * 0.4)
      else if (i.val = 3 ∧ j.val ≤ 2) ∨ (j.val = 3 ∧ i.val ≤ 2) then 0.2 * c
      else 0 := by
  fin_cases i <;> fin_cases j <;> rfl


/-- The values of the numerals 3 to 6 of `Fin n_aug_`. -/
theorem fin_n_aug_val :
    ((3 : Fin n_aug_) : ℕ) = 3 ∧ ((4 : Fin n_aug_) : ℕ) = 4 ∧ ((5 : Fin n_aug_) : ℕ) = 5 ∧
      ((6 : Fin n_aug_) : ℕ) = 6 :=
  ⟨rfl, rfl, rfl, rfl⟩

set_option maxHeartbeats 4000000 in
/-- The matrix `wideYawL c` is a square root of the augmented covariance of
`wideYawState c`. -/
theorem wideYawL_mul_transpose {F : Type} [LinearOrderedField F] (c : F) :
    wideYawL c * (wideYawL c)ᵀ = P_aug (wideYawState c) := by
  ext i j
  rw [Matrix.mul_apply, Fin.sum_univ_seven]
  simp only [Matrix.transpose_apply, wideYawL_apply, P_aug_wideYawState_apply]
  simp only [Fin.val_zero, Fin.val_one, Fin.val_two, fin_n_aug_val.1, fin_n_aug_val.2.1,
    fin_n_aug_val.2.2.1, fin_n_aug_val.2.2.2]
  fin_cases i <;> fin_cases j <;> norm_num <;> ring

/-- The predicted px and py of a sigma point whose yaw rate is within the
straight-line threshold. -/
theorem predictSigmaPoint_straight {F : Type} [LinearOrderedField F] (e : Env F) (delta_t : F)
    (X : Fin n_aug_ → F) (h : ¬ |X 4| > 0.001) :
    predictSigmaPoint e delta_t X 0 =
        X 0 + X 2 * delta_t * e.cos (X 3) + 0.5 * X 5 * delta_t * delta_t * e.cos (X 3) ∧
      predictSigmaPoint e delta_t X 1 =
        X 1 + X 2 * delta_t * e.sin (X 3) + 0.5 * X 5 * delta_t * delta_t * e.sin (X 3) := by
  unfold predictSigmaPoint
  simp [h]

/-- The augmented mean of `wideYawState c`. -/
theorem x_aug_wideYawState {F : Type} [LinearOrderedField F] (c : F) (k : Fin n_aug_) :
    x_aug (wideYawState c) k = if k.val = 2 then 63 / 80 else 0 := by
  fin_cases k <;> rfl

/-- The predicted px and py of the sigma points `x_aug + sg * sqrt(3) * L.col(k)`
of `wideYawState c`, `sg = 1` or `sg = -1`, for `delta_t = 1`, in an
environment whose functions take the listed values: all fifteen points use
the straight-line branch, and the four columns that move yaw move it by the
angle `p` with `cos p = -1`, `sin p = 0`. -/
theorem wideYaw_predicted_point {F : Type} [LinearOrderedField F] (e : Env F) (c r p sg : F)
    (hr0 : 0 ≤ r) (hr2 : r ≤ 2) (hc : r * c = p) (hsg : sg = 1 ∨ sg = -1)
    (cos0 : e.cos 0 = 1) (sin0 : e.sin 0 = 0) (cosp : e.cos p = -1) (cosn : e.cos (-p) = -1)
    (sinp : e.sin p = 0) (sinn : e.sin (-p) = 0) (k : Fin n_aug_) :
    predictSigmaPoint e 1 (fun j => x_aug (wideYawState c) j + sg * (r * wideYawL c j k)) 0 =
        sg * (r * wideYawL c 0 k)
          + (if k.val ≤ 3 then -1 else 1)
            * (63 / 80 + sg * (r * wideYawL c 2 k) + 0.5 * (sg * (r * wideYawL c 5 k))) ∧
      predictSigmaPoint e 1 (fun j => x_aug (wideYawState c) j + sg * (r * wideYawL c j k)) 1 =
        sg * (r * wideYawL c 1 k) := by
  have hb : ¬ |(fun j => x_aug (wideYawState c) j + sg * (r * wideYawL c j k)) 4| > 0.001 := by
    simp only [x_aug_wideYawState, wideYawL_apply, fin_n_aug_val.2.1]
    rcases hsg with h | h <;> subst h <;> fin_cases k <;> norm_num [abs_le] <;>
      constructor <;> linarith
  rw [(predictSigmaPoint_straight e 1 _ hb).1, (predictSigmaPoint_straight e 1 _ hb).2]
  simp only [x_aug_wideYawState, wideYawL_apply, Fin.val_zero, Fin.val_one, Fin.val_two,
    fin_n_aug_val.1, fin_n_aug_val.2.1, fin_n_aug_val.2.2.1, fin_n_aug_val.2.2.2]
  rcases hsg with h | h <;> subst h <;> fin_cases k <;>
    norm_num [hc, cos0, sin0, cosp, cosn, sinp, sinn]

/-- The entries of the covariance written by `Prediction` outside the yaw row
and column: the weighted sum of products of residuals, without any angle
normalization. -/
theorem Prediction_P_apply_of_ne {F : Type} [LinearOrderedField F] [FloorRing F] (e : Env F)
    (s : UKF F) (delta_t : F) (a b : Fin n_x_) (ha : a ≠ 3) (hb : b ≠ 3) :
    (Prediction e s delta_t).P_ a b =
      ∑ i : Fin n_sig_, (Prediction e s delta_t).weights_ i *
        (((Prediction e s delta_t).Xsig_pred_ a i - (Prediction e s delta_t).x_ a) *
          ((Prediction e s delta_t).Xsig_pred_ b i - (Prediction e s delta_t).x_ b)) := by
  unfold Prediction
  simp only [Matrix.sum_apply, Matrix.smul_apply, vecMulVec_apply, smul_eq_mul,
    x_diff_normalized, Function.update_noteq ha, Function.update_noteq hb]

/-- The predicted mean as a sum over the sigma points. -/
theorem Prediction_x_apply {F : Type} [LinearOrderedField F] [FloorRing F] (e : Env F)
    (s : UKF F) (delta_t : F) (a : Fin n_x_) :
    (Prediction e s delta_t).x_ a =
      ∑ i : Fin n_sig_, (Prediction e s delta_t).Xsig_pred_ a i *
        (Prediction e s delta_t).weights_ i :=
  rfl

/-- The weights written by `Prediction`. -/
theorem Prediction_weights {F : Type} [LinearOrderedField F] [FloorRing F] (e : Env F)
    (s : UKF F) (delta_t : F) (i : Fin n_sig_) :
    (Prediction e s delta_t).weights_ i = if i.val = 0 then -4 / 3 else 1 / 6 :=
  filter_weights s.weights_ i

/-- The predicted px and py of the fifteen sigma points of `wideYawState c`
for `delta_t = 1`, in an environment whose square root of 3 is `r`, whose
Cholesky routine returns `wideYawL c` and whose cosine and sine take the
listed values at 0 and at `± p`, `p = r*c`. -/
theorem wideYaw_Xsig_pred {F : Type} [LinearOrderedField F] [FloorRing F] (e : Env F)
    (c r p : F) (hs : e.sqrt (lambda_ F + (n_aug_ : F)) = r)
    (hL : e.llt_matrixL (P_aug (wideYawState c)) = wideYawL c)
    (hr0 : 0 ≤ r) (hr2 : r ≤ 2) (hc : r * c = p)
    (cos0 : e.cos 0 = 1) (sin0 : e.sin 0 = 0) (cosp : e.cos p = -1) (cosn : e.cos (-p) = -1)
    (sinp : e.sin p = 0) (sinn : e.sin (-p) = 0) :
    ((Prediction e (wideYawState c) 1).Xsig_pred_ 0 0 = 63 / 80 ∧
        (Prediction e (wideYawState c) 1).Xsig_pred_ 1 0 = 0) ∧
      (∀ (k : Fin n_aug_) (h : k.val + 1 < n_sig_),
        (Prediction e (wideYawState c) 1).Xsig_pred_ 0 ⟨k.val + 1, h⟩ =
            r * wideYawL c 0 k
              + (if k.val ≤ 3 then -1 else 1)
                * (63 / 80 + r * wideYawL c 2 k + 0.5 * (r * wideYawL c 5 k)) ∧
          (Prediction e (wideYawState c) 1).Xsig_pred_ 1 ⟨k.val + 1, h⟩ = r * wideYawL c 1 k) ∧
      (∀ (k : Fin n_aug_) (h : k.val + 1 + n_aug_ < n_sig_),
        (Prediction e (wideYawState c) 1).Xsig_pred_ 0 ⟨k.val + 1 + n_aug_, h⟩ =
            -(r * wideYawL c 0 k)
              + (if k.val ≤ 3 then -1 else 1)
                * (63 / 80 - r * wideYawL c 2 k - 0.5 * (r * wideYawL c 5 k)) ∧
          (Prediction e (wideYawState c) 1).Xsig_pred_ 1 ⟨k.val + 1 + n_aug_, h⟩
            = -(r * wideYawL c 1 k)) := by
  refine ⟨?_, ?_, ?_⟩
  · have hcol : (fun j => Xsig_aug e.sqrt (x_aug (wideYawState c))
        (e.llt_matrixL (P_aug (wideYawState c))) j 0) = x_aug (wideYawState c) := by
      funext j
      exact Xsig_aug_zero _ _ _ j
    have hb : ¬ |x_aug (wideYawState c) 4| > 0.001 := by
      rw [x_aug_wideYawState]
      norm_num [fin_n_aug_val.2.1]
    constructor
    · show predictSigmaPoint e 1 (fun j => Xsig_aug e.sqrt (x_aug (wideYawState c))
        (e.llt_matrixL (P_aug (wideYawState c))) j 0) 0 = _
      rw [hcol, (predictSigmaPoint_straight e 1 _ hb).1]
      simp only [x_aug_wideYawState, Fin.val_zero, Fin.val_two, fin_n_aug_val.1,
        fin_n_aug_val.2.2.1]
      norm_num [cos0]
    · show predictSigmaPoint e 1 (fun j => Xsig_aug e.sqrt (x_aug (wideYawState c))
        (e.llt_matrixL (P_aug (wideYawState c))) j 0) 1 = _
      rw [hcol, (predictSigmaPoint_straight e 1 _ hb).2]
      simp only [x_aug_wideYawState, Fin.val_one, Fin.val_two, fin_n_aug_val.1,
        fin_n_aug_val.2.2.1]
      norm_num [sin0]
  · intro k h
    have hcol : (fun j => Xsig_aug e.sqrt (x_aug (wideYawState c))
        (e.llt_matrixL (P_aug (wideYawState c))) j ⟨k.val + 1, h⟩)
        = fun j => x_aug (wideYawState c) j + 1 * (r * wideYawL c j k) := by
      funext j
      rw [hL, Xsig_aug_plus, hs, one_mul]
    have hv := wideYaw_predicted_point e c r p 1 hr0 hr2 hc (Or.inl rfl) cos0 sin0 cosp cosn
      sinp sinn k
    rw [← hcol] at hv
    constructor
    · exact hv.1.trans (by simp only [one_mul])
    · exact hv.2.trans (by simp only [one_mul])
  · intro k h
    have hcol : (fun j => Xsig_aug e.sqrt (x_aug (wideYawState c))
        (e.llt_matrixL (P_aug (wideYawState c))) j ⟨k.val + 1 + n_aug_, h⟩)
        = fun j => x_aug (wideYawState c) j + -1 * (r * wideYawL c j k) := by
      funext j
      rw [hL, Xsig_aug_minus, hs]
      ring
    have hv := wideYaw_predicted_point e c r p (-1) hr0 hr2 hc (Or.inr rfl) cos0 sin0 cosp cosn
      sinp sinn k
    rw [← hcol] at hv
    constructor
    · exact hv.1.trans (by ring)
    · exact hv.2.trans (by ring)

/-- The mean and the px, py block of the covariance that `Prediction` writes
for `wideYawState c` and `delta_t = 1`, in an environment as in
`wideYaw_Xsig_pred` with `r*r = 3`: the predicted variance of px is
`-9/400`. -/
theorem wideYaw_Prediction_P {F : Type} [LinearOrderedField F] [FloorRing F] (e : Env F)
    (c r p : F) (hs : e.sqrt (lambda_ F + (n_aug_ : F)) = r)
    (hL : e.llt_matrixL (P_aug (wideYawState c)) = wideYawL c)
    (hr0 : 0 ≤ r) (hr2 : r ≤ 2) (hrr : r * r = 3) (hc : r * c = p)
    (cos0 : e.cos 0 = 1) (sin0 : e.sin 0 = 0) (cosp : e.cos p = -1) (cosn : e.cos (-p) = -1)
    (sinp : e.sin p = 0) (sinn : e.sin (-p) = 0) :
    (Prediction e (wideYawState c) 1).x_ 0 = -21 / 16 ∧
      (Prediction e (wideYawState c) 1).x_ 1 = 0 ∧
      (Prediction e (wideYawState c) 1).P_ 0 0 = -9 / 400 ∧
      (Prediction e (wideYawState c) 1).P_ 0 1 = 0 ∧
      (Prediction e (wideYawState c) 1).P_ 1 1 = 1 / 25 := by
  obtain ⟨⟨h00, h10⟩, hp, hm⟩ := wideYaw_Xsig_pred e c r p hs hL hr0 hr2 hc cos0 sin0 cosp cosn
    sinp sinn
  have hx0 : (Prediction e (wideYawState c) 1).x_ 0 = -21 / 16 := by
    rw [Prediction_x_apply, sum_sigma_split]
    simp only [Prediction_weights, h00, (hp _ _).1, (hm _ _).1]
    rw [Fin.sum_univ_seven, Fin.sum_univ_seven]
    simp only [wideYawL_apply, Fin.val_zero, Fin.val_one, Fin.val_two, fin_n_aug_val.1,
      fin_n_aug_val.2.1, fin_n_aug_val.2.2.1, fin_n_aug_val.2.2.2]
    norm_num
    ring
  have hx1 : (Prediction e (wideYawState c) 1).x_ 1 = 0 := by
    rw [Prediction_x_apply, sum_sigma_split]
    simp only [Prediction_weights, h10, (hp _ _).2, (hm _ _).2]
    rw [Fin.sum_univ_seven, Fin.sum_univ_seven]
    simp only [wideYawL_apply, Fin.val_zero, Fin.val_one, Fin.val_two, fin_n_aug_val.1,
      fin_n_aug_val.2.1, fin_n_aug_val.2.2.1, fin_n_aug_val.2.2.2]
    norm_num
  refine ⟨hx0, hx1, ?_, ?_, ?_⟩
  · rw [Prediction_P_apply_of_ne e _ _ 0 0 (by decide) (by decide), sum_sigma_split]
    simp only [Prediction_weights, h00, (hp _ _).1, (hm _ _).1, hx0]
    rw [Fin.sum_univ_seven, Fin.sum_univ_seven]
    simp only [wideYawL_apply, Fin.val_zero, Fin.val_one, Fin.val_two, fin_n_aug_val.1,
      fin_n_aug_val.2.1, fin_n_aug_val.2.2.1, fin_n_aug_val.2.2.2]
    norm_num
    linear_combination (9 / 25 : F) * hrr
  · rw [Prediction_P_apply_of_ne e _ _ 0 1 (by decide) (by decide), sum_sigma_split]
    simp only [Prediction_weights, h00, h10, (hp _ _).1, (hm _ _).1, (hp _ _).2, (hm _ _).2,
      hx0, hx1]
    rw [Fin.sum_univ_seven, Fin.sum_univ_seven]
    simp only [wideYawL_apply, Fin.val_zero, Fin.val_one, Fin.val_two, fin_n_aug_val.1,
      fin_n_aug_val.2.1, fin_n_aug_val.2.2.1, fin_n_aug_val.2.2.2]
    norm_num
  · rw [Prediction_P_apply_of_ne e _ _ 1 1 (by decide) (by decide), sum_sigma_split]
    simp only [Prediction_weights, h10, (hp _ _).2, (hm _ _).2, hx1]
    rw [Fin.sum_univ_seven, Fin.sum_univ_seven]
    simp only [wideYawL_apply, Fin.val_zero, Fin.val_one, Fin.val_two, fin_n_aug_val.1,
      fin_n_aug_val.2.1, fin_n_aug_val.2.2.1, fin_n_aug_val.2.2.2]
    norm_num
    linear_combination (1 / 75 : F) * hrr

/-- The mean and the px, py block of the covariance that `Prediction` writes
for `wideYawState (π/√3)` and `delta_t = 1`, with the real cosine, sine and
square root and the Cholesky factor `wideYawL (π/√3)`. -/
theorem wideYaw_real_Prediction_P :
    (Prediction
        (envOf Real.cos Real.sin Real.sqrt (fun y x => Complex.arg ⟨x, y⟩) Real.pi Real.pi_pos
          (wideYawL (Real.pi / Real.sqrt 3)))
        (wideYawState (Real.pi / Real.sqrt 3)) 1).x_ 0 = -21 / 16 ∧
      (Prediction
        (envOf Real.cos Real.sin Real.sqrt (fun y x => Complex.arg ⟨x, y⟩) Real.pi Real.pi_pos
          (wideYawL (Real.pi / Real.sqrt 3)))
        (wideYawState (Real.pi / Real.sqrt 3)) 1).x_ 1 = 0 ∧
      (Prediction
        (envOf Real.cos Real.sin Real.sqrt (fun y x => Complex.arg ⟨x, y⟩) Real.pi Real.pi_pos
          (wideYawL (Real.pi / Real.sqrt 3)))
        (wideYawState (Real.pi / Real.sqrt 3)) 1).P_ 0 0 = -9 / 400 ∧
      (Prediction
        (envOf Real.cos Real.sin Real.sqrt (fun y x => Complex.arg ⟨x, y⟩) Real.pi Real.pi_pos
          (wideYawL (Real.pi / Real.sqrt 3)))
        (wideYawState (Real.pi / Real.sqrt 3)) 1).P_ 0 1 = 0 ∧
      (Prediction
        (envOf Real.cos Real.sin Real.sqrt (fun y x => Complex.arg ⟨x, y⟩) Real.pi Real.pi_pos
          (wideYawL (Real.pi / Real.sqrt 3)))
        (wideYawState (Real.pi / Real.sqrt 3)) 1).P_ 1 1 = 1 / 25 := by
  have h3 : lambda_ ℝ + (n_aug_ : ℝ) = 3 := by
    unfold lambda_
    norm_num
  have hpos : (0 : ℝ) < Real.sqrt 3 := Real.sqrt_pos.mpr (by norm_num)
  refine wideYaw_Prediction_P _ (Real.pi / Real.sqrt 3) (Real.sqrt 3) Real.pi ?_ rfl hpos.le ?_
    (Real.mul_self_sqrt (by norm_num)) (mul_div_cancel₀ _ hpos.ne') Real.cos_zero Real.sin_zero
    Real.cos_pi ?_ Real.sin_pi ?_
  · show Real.sqrt (lambda_ ℝ + (n_aug_ : ℝ)) = Real.sqrt 3
    rw [h3]
  · exact Real.sqrt_le_iff.mpr ⟨by norm_num, by norm_num⟩
  · show Real.cos (-Real.pi) = -1
    rw [Real.cos_neg, Real.cos_pi]
  · show Real.sin (-Real.pi) = 0
    rw [Real.sin_neg, Real.sin_pi, neg_zero]

/-- The covariance of `wideYawState c` is symmetric. -/
theorem wideYawState_P_isSymm {F : Type} [LinearOrderedField F] (c : F) :
    (wideYawState c).P_.IsSymm := by
  ext i j
  fin_cases i <;> fin_cases j <;> rfl

/-- The quadratic form of the augmented covariance of `wideYawState c` is a
sum of seven squares, one for each column of `wideYawL c`. -/
theorem P_aug_wideYawState_quadForm {F : Type} [LinearOrderedField F] (c : F)
    (u : Fin n_aug_ → F) :
    u ⬝ᵥ (P_aug (wideYawState c)).mulVec u =
      (0.2 * u 0 + c * u 3) ^ 2 + (0.2 * u 1 + c * u 3) ^ 2 + (0.2 * u 2 + c * u 3) ^ 2
        + (c * u 3) ^ 2 + (0.0005 * u 4) ^ 2 + (2.0 * u 5) ^ 2 + (0.4 * u 6) ^ 2 := by
  simp only [dotProduct, Matrix.mulVec, Fin.sum_univ_seven, P_aug_wideYawState_apply,
    Fin.val_zero, Fin.val_one, Fin.val_two, fin_n_aug_val.1, fin_n_aug_val.2.1,
    fin_n_aug_val.2.2.1, fin_n_aug_val.2.2.2]
  norm_num
  ring

/-- Seven non-negative numbers whose sum is zero are all zero. -/
theorem seven_nonneg_sum_zero {F : Type} [LinearOrderedField F] (a0 a1 a2 a3 a4 a5 a6 : F)
    (h0 : 0 ≤ a0) (h1 : 0 ≤ a1) (h2 : 0 ≤ a2) (h3 : 0 ≤ a3) (h4 : 0 ≤ a4) (h5 : 0 ≤ a5)
    (h6 : 0 ≤ a6) (h : 0 = a0 + a1 + a2 + a3 + a4 + a5 + a6) :
    a0 = 0 ∧ a1 = 0 ∧ a2 = 0 ∧ a3 = 0 ∧ a4 = 0 ∧ a5 = 0 ∧ a6 = 0 := by
  refine ⟨?_, ?_, ?_, ?_, ?_, ?_, ?_⟩ <;> linarith

/-- For `c ≠ 0` the augmented covariance of `wideYawState c` is positive
definite. -/
theorem P_aug_wideYawState_posDef {F : Type} [LinearOrderedField F] (c : F) (hc : c ≠ 0) :
    PosDefForm (P_aug (wideYawState c)) := by
  intro u hu
  rw [P_aug_wideYawState_quadForm]
  have hnn : 0 ≤ (0.2 * u 0 + c * u 3) ^ 2 + (0.2 * u 1 + c * u 3) ^ 2
      + (0.2 * u 2 + c * u 3) ^ 2 + (c * u 3) ^ 2 + (0.0005 * u 4) ^ 2 + (2.0 * u 5) ^ 2
      + (0.4 * u 6) ^ 2 := by positivity
  rcases hnn.lt_or_eq with h | h
  · exact h
  · exfalso
    apply hu
    obtain ⟨q0, q1, q2, q3, q4, q5, q6⟩ := seven_nonneg_sum_zero _ _ _ _ _ _ _
      (sq_nonneg _) (sq_nonneg _) (sq_nonneg _) (sq_nonneg _) (sq_nonneg _) (sq_nonneg _)
      (sq_nonneg _) h
    have z0 : 0.2 * u 0 + c * u 3 = 0 := (pow_eq_zero_iff two_ne_zero).mp q0
    have z1 : 0.2 * u 1 + c * u 3 = 0 := (pow_eq_zero_iff two_ne_zero).mp q1
    have z2 : 0.2 * u 2 + c * u 3 = 0 := (pow_eq_zero_iff two_ne_zero).mp q2
    have z3 : c * u 3 = 0 := (pow_eq_zero_iff two_ne_zero).mp q3
    have z4 : 0.0005 * u 4 = 0 := (pow_eq_zero_iff two_ne_zero).mp q4
    have z5 : 2.0 * u 5 = 0 := (pow_eq_zero_iff two_ne_zero).mp q5
    have z6 : 0.4 * u 6 = 0 := (pow_eq_zero_iff two_ne_zero).mp q6
    have u3 : u 3 = 0 := (mul_eq_zero.mp z3).resolve_left hc
    rw [z3, add_zero] at z0 z1 z2
    have u0 : u 0 = 0 := (mul_eq_zero.mp z0).resolve_left (by norm_num)
    have u1 : u 1 = 0 := (mul_eq_zero.mp z1).resolve_left (by norm_num)
    have u2 : u 2 = 0 := (mul_eq_zero.mp z2).resolve_left (by norm_num)
    have u4 : u 4 = 0 := (mul_eq_zero.mp z4).resolve_left (by norm_num)
    have u5 : u 5 = 0 := (mul_eq_zero.mp z5).resolve_left (by norm_num)
    have u6 : u 6 = 0 := (mul_eq_zero.mp z6).resolve_left (by norm_num)
    funext i
    fin_cases i
    · exact u0
    · exact u1
    · exact u2
    · exact u3
    · exact u4
    · exact u5
    · exact u6

/-- The covariance of a state is positive-semidefinite when its augmented
covariance is: the quadratic form of `P_` at `u` is that of `P_aug` at
`[u; 0; 0]`. -/
theorem posSemidef_of_P_aug {F : Type} [LinearOrderedField F] (s : UKF F)
    (h : PosSemidefForm (P_aug s)) : PosSemidefForm s.P_ := by
  intro u
  have hu := h (fun i => if hi : i.val < n_x_ then u ⟨i.val, hi⟩ else 0)
  have e : (fun i : Fin n_aug_ => if hi : i.val < n_x_ then u ⟨i.val, hi⟩ else 0)
      ⬝ᵥ (P_aug s).mulVec (fun i => if hi : i.val < n_x_ then u ⟨i.val, hi⟩ else 0)
      = u ⬝ᵥ s.P_.mulVec u := by
    simp only [dotProduct, Matrix.mulVec, Fin.sum_univ_seven, Fin.sum_univ_five, P_aug]
    simp only [Fin.val_zero, Fin.val_one, Fin.val_two, fin_n_aug_val.1, fin_n_aug_val.2.1,
      fin_n_aug_val.2.2.1, fin_n_aug_val.2.2.2]
    norm_num
    rfl
  rw [e] at hu
  exact hu

/-- A matrix whose quadratic form is nowhere negative has a non-negative
diagonal. -/
theorem PosSemidefForm_diag_nonneg {F : Type} [LinearOrderedField F] {n : Nat}
    (M : Matrix (Fin n) (Fin n) F) (h : PosSemidefForm M) (i : Fin n) : 0 ≤ M i i := by
  have hi := h (Pi.single i 1)
  simpa [Matrix.mulVec_single, single_dotProduct] using hi

/-- Counterexample to C15 as stated.  The state `wideYawState (π/√3)` has a
symmetric positive-semidefinite covariance and a positive-definite augmented
covariance with Cholesky factor `wideYawL (π/√3)`; with the real cosine, sine
and square root and `delta_t = 1`, the covariance written by `Prediction` has
the px variance `-9/400`, so it is not positive-semidefinite. -/
theorem Prediction_covariance_not_posSemidef :
    ((wideYawState (Real.pi / Real.sqrt 3)).P_.IsSymm ∧
        PosSemidefForm (wideYawState (Real.pi / Real.sqrt 3)).P_ ∧
        PosDefForm (P_aug (wideYawState (Real.pi / Real.sqrt 3))) ∧
        wideYawL (Real.pi / Real.sqrt 3) * (wideYawL (Real.pi / Real.sqrt 3))ᵀ
          = P_aug (wideYawState (Real.pi / Real.sqrt 3))) ∧
      (Prediction
        (envOf Real.cos Real.sin Real.sqrt (fun y x => Complex.arg ⟨x, y⟩) Real.pi Real.pi_pos
          (wideYawL (Real.pi / Real.sqrt 3)))
        (wideYawState (Real.pi / Real.sqrt 3)) 1).P_ 0 0 = -9 / 400 ∧
      ¬ PosSemidefForm
        (Prediction
          (envOf Real.cos Real.sin Real.sqrt (fun y x => Complex.arg ⟨x, y⟩) Real.pi Real.pi_pos
            (wideYawL (Real.pi / Real.sqrt 3)))
          (wideYawState (Real.pi / Real.sqrt 3)) 1).P_ := by
  have hc : Real.pi / Real.sqrt 3 ≠ 0 :=
    div_ne_zero Real.pi_pos.ne' (Real.sqrt_pos.mpr (by norm_num)).ne'
  have hpd := P_aug_wideYawState_posDef (Real.pi / Real.sqrt 3) hc
  have hpsd : PosSemidefForm (P_aug (wideYawState (Real.pi / Real.sqrt 3))) := by
    intro u
    by_cases hu : u = 0
    · rw [hu]
      simp
    · exact (hpd u hu).le
  refine ⟨⟨wideYawState_P_isSymm _, posSemidef_of_P_aug _ hpsd, hpd, wideYawL_mul_transpose _⟩,
    wideYaw_real_Prediction_P.2.2.1, fun h => ?_⟩
  have h0 := PosSemidefForm_diag_nonneg _ h 0
  rw [wideYaw_real_Prediction_P.2.2.1] at h0
  norm_num at h0

/-- After `Prediction`, the predicted measurement of `UpdateLidar` is the px,
py part of the predicted mean. -/
theorem UpdateLidar_z_pred_after_Prediction {F : Type} [LinearOrderedField F] [FloorRing F]
    (e : Env F) (s : UKF F) (delta_t : F) (a : Fin 2) :
    UpdateLidar_z_pred (Prediction e s delta_t) a
      = (Prediction e s delta_t).x_ (Fin.castLE (by decide) a) := by
  rw [Prediction_x_apply]
  simp only [UpdateLidar_z_pred, UpdateLidar_Zsig, Finset.sum_apply, Pi.smul_apply, smul_eq_mul]
  exact Finset.sum_congr rfl (fun i _ => mul_comm _ _)

/-- After `Prediction`, the innovation covariance of `UpdateLidar` is the px,
py block of the predicted covariance plus the measurement noise. -/
theorem UpdateLidar_S_after_Prediction {F : Type} [LinearOrderedField F] [FloorRing F]
    (e : Env F) (s : UKF F) (delta_t : F) (a b : Fin 2) :
    UpdateLidar_S (Prediction e s delta_t) a b =
      (Prediction e s delta_t).P_ (Fin.castLE (by decide) a) (Fin.castLE (by decide) b)
        + (!![s.std_laspx_ * s.std_laspx_, 0; 0, s.std_laspy_ * s.std_laspy_]
            : Matrix (Fin 2) (Fin 2) F) a b := by
  have ha : (Fin.castLE (by decide : 2 ≤ n_x_) a) ≠ 3 := by
    fin_cases a <;> decide
  have hb : (Fin.castLE (by decide : 2 ≤ n_x_) b) ≠ 3 := by
    fin_cases b <;> decide
  rw [Prediction_P_apply_of_ne e s delta_t _ _ ha hb]
  unfold UpdateLidar_S
  simp only [Matrix.add_apply, Matrix.sum_apply, Matrix.smul_apply, vecMulVec_apply, smul_eq_mul,
    UpdateLidar_z_pred_after_Prediction]
  rfl

/-- Witness of C16 (as amended): the default filter, whose noise standard
deviations are positive, predicted over `delta_t = 0.1` in the sample
environment. -/
theorem innovation_covariance_plus_central_posDef_witness :
    ((0 : ℚ) < (UKF.UKF ⟨![1, 0.8, 0, 0, 0], 0, 0, 0⟩ : UKF ℚ).std_laspx_ ∧
        (0 : ℚ) < (UKF.UKF ⟨![1, 0.8, 0, 0, 0], 0, 0, 0⟩ : UKF ℚ).std_laspy_ ∧
        (0 : ℚ) < (UKF.UKF ⟨![1, 0.8, 0, 0, 0], 0, 0, 0⟩ : UKF ℚ).std_radr_ ∧
        (0 : ℚ) < (UKF.UKF ⟨![1, 0.8, 0, 0, 0], 0, 0, 0⟩ : UKF ℚ).std_radphi_ ∧
        (0 : ℚ) < (UKF.UKF ⟨![1, 0.8, 0, 0, 0], 0, 0, 0⟩ : UKF ℚ).std_radrd_) ∧
      PosDefForm
        (UpdateLidar_S (Prediction sampleEnv (UKF.UKF ⟨![1, 0.8, 0, 0, 0], 0, 0, 0⟩) 0.1) +
          (4 / 3 : ℚ) •
            vecMulVec
              (fun r =>
                UpdateLidar_Zsig (Prediction sampleEnv (UKF.UKF ⟨![1, 0.8, 0, 0, 0], 0, 0, 0⟩) 0.1)
                    r 0
                  - UpdateLidar_z_pred
                    (Prediction sampleEnv (UKF.UKF ⟨![1, 0.8, 0, 0, 0], 0, 0, 0⟩) 0.1) r)
              (fun r =>
                UpdateLidar_Zsig (Prediction sampleEnv (UKF.UKF ⟨![1, 0.8, 0, 0, 0], 0, 0, 0⟩) 0.1)
                    r 0
                  - UpdateLidar_z_pred
                    (Prediction sampleEnv (UKF.UKF ⟨![1, 0.8, 0, 0, 0], 0, 0, 0⟩) 0.1) r)) :=
  ⟨⟨by norm_num [UKF.UKF], by norm_num [UKF.UKF], by norm_num [UKF.UKF], by norm_num [UKF.UKF],
      by norm_num [UKF.UKF]⟩,
    (innovation_covariance_plus_central_posDef sampleEnv (UKF.UKF ⟨![1, 0.8, 0, 0, 0], 0, 0, 0⟩)
      0.1 (by norm_num [UKF.UKF]) (by norm_num [UKF.UKF]) (by norm_num [UKF.UKF])
      (by norm_num [UKF.UKF]) (by norm_num [UKF.UKF])).1.1⟩

/-- Counterexample to C16 as stated.  The state `wideYawState (π/√3)` has the
default, strictly positive noise standard deviations and a positive-definite
augmented covariance with Cholesky factor `wideYawL (π/√3)`; after `Prediction` with
the real cosine, sine and square root and `delta_t = 1`, the innovation
covariance of `UpdateLidar` has `S(0,0) = -9/400 + 0.15*0.15 = 0` and
`S(0,1) = 0`, so its determinant is 0 and `S` is not invertible. -/
theorem UpdateLidar_S_singular :
    ((0 : ℝ) < (wideYawState (Real.pi / Real.sqrt 3)).std_laspx_ ∧
        (0 : ℝ) < (wideYawState (Real.pi / Real.sqrt 3)).std_laspy_ ∧
        (0 : ℝ) < (wideYawState (Real.pi / Real.sqrt 3)).std_radr_ ∧
        (0 : ℝ) < (wideYawState (Real.pi / Real.sqrt 3)).std_radphi_ ∧
        (0 : ℝ) < (wideYawState (Real.pi / Real.sqrt 3)).std_radrd_) ∧
      (PosDefForm (P_aug (wideYawState (Real.pi / Real.sqrt 3))) ∧
        wideYawL (Real.pi / Real.sqrt 3) * (wideYawL (Real.pi / Real.sqrt 3))ᵀ
          = P_aug (wideYawState (Real.pi / Real.sqrt 3))) ∧
      UpdateLidar_S
        (Prediction
          (envOf Real.cos Real.sin Real.sqrt (fun y x => Complex.arg ⟨x, y⟩) Real.pi Real.pi_pos
            (wideYawL (Real.pi / Real.sqrt 3)))
          (wideYawState (Real.pi / Real.sqrt 3)) 1) 0 0 = 0 ∧
      UpdateLidar_S
        (Prediction
          (envOf Real.cos Real.sin Real.sqrt (fun y x => Complex.arg ⟨x, y⟩) Real.pi Real.pi_pos
            (wideYawL (Real.pi / Real.sqrt 3)))
          (wideYawState (Real.pi / Real.sqrt 3)) 1) 0 1 = 0 ∧
      (UpdateLidar_S
        (Prediction
          (envOf Real.cos Real.sin Real.sqrt (fun y x => Complex.arg ⟨x, y⟩) Real.pi Real.pi_pos
            (wideYawL (Real.pi / Real.sqrt 3)))
          (wideYawState (Real.pi / Real.sqrt 3)) 1)).det = 0 := by
  have h00 : UpdateLidar_S
      (Prediction
        (envOf Real.cos Real.sin Real.sqrt (fun y x => Complex.arg ⟨x, y⟩) Real.pi Real.pi_pos
          (wideYawL (Real.pi / Real.sqrt 3)))
        (wideYawState (Real.pi / Real.sqrt 3)) 1) 0 0 = 0 := by
    rw [UpdateLidar_S_after_Prediction]
    show (Prediction _ _ 1).P_ 0 0 + _ = 0
    rw [wideYaw_real_Prediction_P.2.2.1]
    norm_num [wideYawState, UKF.UKF]
  have h01 : UpdateLidar_S
      (Prediction
        (envOf Real.cos Real.sin Real.sqrt (fun y x => Complex.arg ⟨x, y⟩) Real.pi Real.pi_pos
          (wideYawL (Real.pi / Real.sqrt 3)))
        (wideYawState (Real.pi / Real.sqrt 3)) 1) 0 1 = 0 := by
    rw [UpdateLidar_S_after_Prediction]
    show (Prediction _ _ 1).P_ 0 1 + _ = 0
    rw [wideYaw_real_Prediction_P.2.2.2.1]
    norm_num
  refine ⟨⟨?_, ?_, ?_, ?_, ?_⟩,
    ⟨P_aug_wideYawState_posDef _
        (div_ne_zero Real.pi_pos.ne' (Real.sqrt_pos.mpr (by norm_num)).ne'),
      wideYawL_mul_transpose _⟩, h00, h01, ?_⟩
  · norm_num [wideYawState, UKF.UKF]
  · norm_num [wideYawState, UKF.UKF]
  · norm_num [wideYawState, UKF.UKF]
  · norm_num [wideYawState, UKF.UKF]
  · norm_num [wideYawState, UKF.UKF]
  · rw [Matrix.det_fin_two, h00, h01]
    ring

/-! ## The radar mapping at zero range -/

